import Mathlib

/-!
# whatapplld: presence, delivery, backfill and client reconciliation

A shallow embedding of `socket/chatSocket.js`, `model/Message.js` and the
reducers of `src/App.jsx`, with the properties of the specification stated
over it.

Identifiers (user ids, socket ids, room ids, message ids, local ids) are
strings.  A JavaScript field that may be missing is an `Option`.
-/

namespace WhatAppLLD

/-! ## JavaScript helpers -/

/-- JavaScript truthiness of a string: only the empty string is falsy. -/
def truthy (s : String) : Bool := !(s == "")

/-- JavaScript truthiness of a possibly missing string field. -/
def truthyOpt : Option String → Bool
  | none => false
  | some s => truthy s

/-- The conversion `String(x)` of a possibly missing string field. -/
def jsString : Option String → String
  | none => "undefined"
  | some s => s

/-! ## Presence store (`chatSocket.js`, lines 10-37) -/

/-- The shared store: `online:<userId>` holds a set of socket ids (kept as a
duplicate-free list), `socket:<socketId>` holds a user id. -/
structure Redis where
  online : String → List String
  socket : String → Option String

/-- The store with no key set. -/
def Redis.init : Redis := ⟨fun _ => [], fun _ => none⟩

/-- Redis `SADD` on one set. -/
def sAdd (members : List String) (x : String) : List String :=
  if x ∈ members then members else members ++ [x]

/-- Redis `SREM` on one set. -/
def sRem (members : List String) (x : String) : List String :=
  members.filter (fun y => !(y == x))

/-- Redis `SCARD` on one set. -/
def sCard (members : List String) : Nat := members.length

/-- `addOnline(userId, socketId)`: the store afterwards and the returned count. -/
def addOnline (redisClient : Option Redis) (userId socketId : String) :
    Option Redis × Nat :=
  match redisClient with
  | some r =>
    let r1 : Redis :=
      { r with online := Function.update r.online userId (sAdd (r.online userId) socketId) }
    let r2 : Redis :=
      { r1 with socket := Function.update r1.socket socketId (some userId) }
    (some r2, sCard (r2.online userId))
  | none => (none, 1)

/-- `removeOnline(socketId)`: the store afterwards and the returned value
(`none` for `null`, `some (userId, remaining)` otherwise). -/
def removeOnline (redisClient : Option Redis) (socketId : String) :
    Option Redis × Option (String × Nat) :=
  match redisClient with
  | some r =>
    match r.socket socketId with
    | none => (some r, none)
    | some userId =>
      if !(truthy userId) then (some r, none)
      else
        let r1 : Redis :=
          { r with online := Function.update r.online userId (sRem (r.online userId) socketId) }
        let r2 : Redis :=
          { r1 with socket := Function.update r1.socket socketId none }
        (some r2, some (userId, sCard (r2.online userId)))
  | none => (none, none)

/-- `isUserOnline(userId)`. -/
def isUserOnline (redisClient : Option Redis) (userId : String) : Bool :=
  match redisClient with
  | some r => decide (sCard (r.online userId) > 0)
  | none => false

/-- A call made on the presence store. -/
inductive PresenceOp where
  | addOnline (userId socketId : String)
  | removeOnline (socketId : String)
  deriving DecidableEq, Repr

/-- The store after one call. -/
def PresenceOp.apply (redisClient : Option Redis) : PresenceOp → Option Redis
  | .addOnline userId socketId => (WhatAppLLD.addOnline redisClient userId socketId).1
  | .removeOnline socketId => (WhatAppLLD.removeOnline redisClient socketId).1

/-- The store after a sequence of calls, oldest first. -/
def runPresence (redisClient : Option Redis) (ops : List PresenceOp) : Option Redis :=
  ops.foldl PresenceOp.apply redisClient

/-- The socket id `s` was registered for `u` by an `addOnline` call and no later
`removeOnline` call names `s`. -/
def liveRegistration (ops : List PresenceOp) (u s : String) : Prop :=
  ∃ pre post, ops = pre ++ PresenceOp.addOnline u s :: post
    ∧ PresenceOp.removeOnline s ∉ post

/-- The specification's reading of "online": some socket id was registered for
`u` by an `addOnline` call and no later `removeOnline` call names that socket id. -/
def hasLiveRegistration : List PresenceOp → String → Bool
  | [], _ => false
  | .addOnline userId socketId :: rest, u =>
    (userId == u && !(rest.contains (.removeOnline socketId))) || hasLiveRegistration rest u
  | .removeOnline _ :: rest, u => hasLiveRegistration rest u

/-! ## Message store (`model/Message.js`) -/

/-- A stored message document.  `sender`, `content` and `replyTo` are not
required by the schema; `createdAt` comes from `timestamps: true`. -/
structure Message where
  _id : String
  chatId : String
  sender : Option String
  content : Option String
  replyTo : Option String
  type : String
  status : String
  createdAt : Nat
  deriving DecidableEq, Repr

/-- The payload of a `sendMessage` event, every field possibly missing. -/
structure SendPayload where
  chatId : Option String
  sender : Option String
  content : Option String
  replyTo : Option String
  type : Option String
  status : Option String
  createdAt : Option Nat
  _localId : Option String
  deriving DecidableEq, Repr

/-- The document built from a payload whose `chatId` is present: the schema
defaults are `type = "text"`, `status = "sent"`, `replyTo = null`, and
`timestamps` fills `createdAt` with the current time when the payload gave none. -/
def Message.ofPayload (oid : String) (now : Nat) (chatId : String) (data : SendPayload) :
    Message :=
  { _id := oid, chatId := chatId, sender := data.sender, content := data.content,
    replyTo := data.replyTo, type := data.type.getD "text",
    status := data.status.getD "sent", createdAt := data.createdAt.getD now }

/-- The largest time value of a JavaScript `Date`, in milliseconds. -/
def maxDate : Nat := 8640000000000000

/-- Whether the schema can cast the payload's `createdAt` to a `Date`: a time
value past the range of `Date` is an invalid date and is refused. -/
def dateCastable (createdAt : Option Nat) : Bool :=
  match createdAt with
  | none => true
  | some t => decide (t ≤ maxDate)

/-- `Message.create(data)`: the schema requires `chatId` only, and validation
refuses a `createdAt` it cannot cast.  `oid` is the identifier the database
assigns.  `none` stands for the rejected promise, with nothing persisted. -/
def Message.create (store : List Message) (oid : String) (now : Nat) (data : SendPayload) :
    Option (List Message × Message) :=
  match data.chatId with
  | none => none
  | some chatId =>
    if dateCastable data.createdAt then
      some (store ++ [Message.ofPayload oid now chatId data],
        Message.ofPayload oid now chatId data)
    else none

/-- `Message.findById(id)`. -/
def Message.findById (store : List Message) (id : String) : Option Message :=
  store.find? (fun m => m._id == id)

/-- The update `{ status: "delivered" }` on the document with identifier `id`
(`findByIdAndUpdate`, and `m.save()` after `m.status = "delivered"`). -/
def Message.setDelivered (store : List Message) (id : String) : List Message :=
  store.map (fun m => if m._id == id then { m with status := "delivered" } else m)

/-- `Message.find({ chatId, status: { $ne: "delivered" }, sender: { $ne: userId } })`,
issued without a sort: the matching documents in stored order. -/
def Message.findUndelivered (store : List Message) (chatId userId : String) : List Message :=
  store.filter (fun m => m.chatId == chatId && !(m.status == "delivered")
    && !(m.sender == some userId))

/-! ## Emitted events -/

/-- The `sender` of a message as it is emitted: the stored value as it is (the
documents `joinChat` emits, and an absent sender), or what
`populate("sender", "_id name")` put in its place: `null` when there is no such
user, the user's `_id` and `name` otherwise. -/
inductive WireSender where
  | stored
  | null
  | user (_id name : String)
  deriving DecidableEq, Repr

/-- A message as it travels in `receiveMessage`: the document, the echoed local
identifier of the client, when there is one, and the emitted `sender`. -/
structure WireMessage where
  doc : Message
  _localId : Option String
  sender : WireSender
  deriving DecidableEq, Repr

/-- The events the server emits. -/
inductive Event where
  | receiveMessage (msg : WireMessage)
  | messageDelivered (messageId deliveredTo : String)
  | userOnline (userId : String)
  | userOffline (userId : String)
  deriving DecidableEq, Repr

/-- Where an emit goes: `io.to(scope)`, `socket.emit` on one socket, `io.emit`. -/
inductive Target where
  | room (scope : String)
  | socket (socketId : String)
  | all
  deriving DecidableEq, Repr

/-- One emit performed by a handler. -/
structure Emit where
  target : Target
  event : Event
  deriving DecidableEq, Repr

/-- A connection: its socket id and the scopes (room ids and user ids) it joined. -/
structure Socket where
  id : String
  rooms : List String
  deriving DecidableEq, Repr

/-- Whether an emit with this target is delivered to the connection. -/
def Target.reaches (t : Target) (c : Socket) : Bool :=
  match t with
  | .room scope => c.rooms.contains scope
  | .socket socketId => c.id == socketId
  | .all => true

/-- How many times the connection receives the event from a list of emits. -/
def receivedCount (emits : List Emit) (c : Socket) (ev : Event) : Nat :=
  (emits.filter (fun e => e.target.reaches c && e.event == ev)).length

/-! ## `joinChat` (`chatSocket.js`, lines 68-91) -/

/-- The payload of `joinChat`: a bare room name, or an object with the fields
`chatId` and `userId`. -/
inductive JoinPayload where
  | name (chatId : String)
  | fields (chatId userId : Option String)
  deriving DecidableEq, Repr

/-- The room of `payload && payload.chatId ? payload.chatId : payload`; `none`
when the value is the payload object itself, which is no stored room name. -/
def JoinPayload.room : JoinPayload → Option String
  | .name chatId => some chatId
  | .fields chatId _ => if truthyOpt chatId then chatId else none

/-- The user of `payload && payload.userId ? payload.userId : undefined`. -/
def JoinPayload.user : JoinPayload → Option String
  | .name _ => none
  | .fields _ userId => if truthyOpt userId then userId else none

/-- The loop over the undelivered messages: emit to the joining socket, store
the delivered status, acknowledge to the scope of the message's sender. -/
def backfill (socketId userId : String) : List Message → List Message → List Message × List Emit
  | [], store => (store, [])
  | m :: rest, store =>
    let r := backfill socketId userId rest (Message.setDelivered store m._id)
    (r.1, ⟨.socket socketId, .receiveMessage ⟨m, none, .stored⟩⟩
        :: ⟨.room (jsString m.sender), .messageDelivered m._id userId⟩ :: r.2)

/-- The `joinChat` handler on the socket `socketId`: the message store
afterwards and the emits, in order. -/
def joinChat (store : List Message) (socketId : String) (payload : JoinPayload) :
    List Message × List Emit :=
  match payload.user with
  | none => (store, [])
  | some userId =>
    match payload.room with
    | none => (store, [])
    | some chatId => backfill socketId userId (Message.findUndelivered store chatId userId) store

/-! ## `sendMessage` (`chatSocket.js`, lines 93-132) -/

/-- The loop over the chat's participants: skip the sender, and for each one
that is online emit the message and an acknowledgment to the participant's
scope.  Returns the `delivered` flag and the emits, in order. -/
def fanOut (redisClient : Option Redis) (sender : String) (msg : WireMessage) :
    List String → Bool × List Emit
  | [] => (false, [])
  | pid :: rest =>
    let r := fanOut redisClient sender msg rest
    if pid == sender then r
    else if isUserOnline redisClient pid then
      (true, ⟨.room pid, .receiveMessage msg⟩
        :: ⟨.room pid, .messageDelivered msg.doc._id pid⟩ :: r.2)
    else r

/-- The echo `if (data && data._localId) msg._localId = data._localId`. -/
def echoLocalId (data : SendPayload) : Option String :=
  if truthyOpt data._localId then data._localId else none

/-- What the User collection answers when `populate` looks a sender up: the
value cannot be cast to a user id (the query rejects), no user has that id, or
the user with that id and its name.  The User model is not part of the sources
at hand, so the collection is a parameter of the handler. -/
inductive SenderLookup where
  | castError
  | notFound
  | found (name : String)
  deriving DecidableEq, Repr

/-- The call `.populate("sender", "_id name")` on a document with this stored
sender: `none` stands for the rejected promise; an absent sender is left alone. -/
def populateSender (users : String → SenderLookup) (sender : Option String) :
    Option WireSender :=
  match sender with
  | none => some .stored
  | some s =>
    match users s with
    | .castError => none
    | .notFound => some .null
    | .found name => some (.user s name)

/-- The message carried by the emits of `sendMessage` for a fresh identifier
and a populated sender. -/
def sentMessage (oid : String) (now : Nat) (chatId : String) (data : SendPayload)
    (sender : WireSender) : WireMessage :=
  ⟨Message.ofPayload oid now chatId data, echoLocalId data, sender⟩

/-- The condition of the delivered transition: some listed participant other
than the sender is online. -/
def otherParticipantOnline (redisClient : Option Redis) (participants : List String)
    (sender : String) : Prop :=
  ∃ p ∈ participants, p ≠ sender ∧ isUserOnline redisClient p = true

/-- The part of the `sendMessage` handler after the message `msg` is built
(lines 103-128): the emit to the room, the loop over the participants, and for
a delivered message the status update and the aggregate acknowledgment to the
sender.  `store1` is the store with the new message in it. -/
def broadcast (redisClient : Option Redis) (chats : String → Option (List String))
    (store1 : List Message) (chatId : String) (data : SendPayload) (msg : WireMessage) :
    List Message × List Emit :=
  let toRoom : Emit := ⟨.room chatId, .receiveMessage msg⟩
  let r := fanOut redisClient (jsString data.sender) msg ((chats chatId).getD [])
  if r.1 then
    (Message.setDelivered store1 msg.doc._id,
      toRoom :: r.2
        ++ [⟨.room (jsString data.sender), .messageDelivered msg.doc._id "multiple"⟩])
  else (store1, toRoom :: r.2)

/-- The `sendMessage` handler.  `users` is the User collection as `populate`
sees it; `chats` is the lookup `Chat.findById(chatId)` reduced to the
participant ids (`none`: no such chat, or an id it cannot cast, after which
the handler does nothing more either way); `oid` and `now` are the identifier
and the time the database assigns on creation.  When `populate` rejects, the
message stays persisted and the `catch` ends the handler before any emit.
Returns the message store afterwards and the emits, in order. -/
def sendMessage (redisClient : Option Redis) (users : String → SenderLookup)
    (chats : String → Option (List String))
    (store : List Message) (oid : String) (now : Nat) (data : SendPayload) :
    List Message × List Emit :=
  match data.chatId, Message.create store oid now data with
  | some chatId, some (store1, msgDoc) =>
    match Message.findById store1 msgDoc._id with
    | none => broadcast redisClient chats store1 chatId data ⟨msgDoc, echoLocalId data, .stored⟩
    | some found =>
      match populateSender users found.sender with
      | none => (store1, [])
      | some sender =>
        broadcast redisClient chats store1 chatId data ⟨found, echoLocalId data, sender⟩
  | _, _ => (store, [])

/-! ## Client (`src/App.jsx`) -/

namespace Client

/-- A message in the client's list: an optimistic local one (no `_id` yet) or a
server-confirmed one. -/
structure ClientMessage where
  _id : Option String
  _localId : Option String
  chatId : String
  sender : String
  content : String
  replyTo : Option String
  type : String
  status : String
  createdAt : Nat
  deriving DecidableEq, Repr

/-- The two pieces of React state the reducers act on. -/
structure ClientState where
  messages : List ClientMessage
  queuedMessages : List ClientMessage
  deriving DecidableEq, Repr

/-- The test `mm._localId && mm._localId === msg._localId`. -/
def sameLocal (mm msg : ClientMessage) : Bool :=
  truthyOpt mm._localId && mm._localId == msg._localId

/-- The `m.map` of the `receiveMessage` reducer together with its `replaced` flag. -/
def replaceLocal (msg : ClientMessage) : List ClientMessage → List ClientMessage × Bool
  | [] => ([], false)
  | mm :: rest =>
    let r := replaceLocal msg rest
    if sameLocal mm msg then (msg :: r.1, true) else (mm :: r.1, r.2)

/-- The `setMessages` reducer of `socket.on("receiveMessage")` (lines 90-108). -/
def receiveMessage (m : List ClientMessage) (msg : ClientMessage) : List ClientMessage :=
  if truthyOpt msg._localId && (replaceLocal msg m).2 then (replaceLocal msg m).1
  else if truthyOpt msg._id && m.any (fun mm => jsString mm._id == jsString msg._id) then m
  else m ++ [msg]

/-- The local identifier built in `sendMessage` from the clock and a random suffix. -/
def localId (now : Nat) (rnd : String) : String :=
  "l_" ++ toString now ++ "_" ++ rnd

/-- The characters `String.prototype.trim` removes: the white space and line
terminator code points of the language (tab, line feed, vertical tab, form
feed, carriage return, space, no-break space, the space separators, the line
and paragraph separators and the byte order mark). -/
def jsWhiteSpace (c : Char) : Bool :=
  c.toNat == 9 || c.toNat == 10 || c.toNat == 11 || c.toNat == 12 || c.toNat == 13
    || c.toNat == 32 || c.toNat == 160 || c.toNat == 5760
    || (decide (8192 ≤ c.toNat) && decide (c.toNat ≤ 8202))
    || c.toNat == 8232 || c.toNat == 8233 || c.toNat == 8239 || c.toNat == 8287
    || c.toNat == 12288 || c.toNat == 65279

/-- The client's `sendMessage` (lines 175-202): the state afterwards and the
payload emitted on the socket, if any.  `!input.trim()` holds exactly when
every character of the input is one that `trim` removes. -/
def sendMessage (connected socketConnected : Bool) (input : String) (user : Option String)
    (replyingTo : Option String) (now : Nat) (rnd : String) (st : ClientState) :
    ClientState × Option ClientMessage :=
  match user with
  | none => (st, none)
  | some userId =>
    if input.toList.all jsWhiteSpace then (st, none)
    else
      let msg : ClientMessage :=
        { _id := none, _localId := some (localId now rnd), chatId := "global-chat",
          sender := userId, content := input, replyTo := replyingTo, type := "text",
          status := if connected then "sent" else "queued", createdAt := now }
      if connected && socketConnected then
        ({ st with messages := st.messages ++ [msg] }, some msg)
      else
        ({ messages := st.messages ++ [msg], queuedMessages := st.queuedMessages ++ [msg] }, none)

/-- The payload a client message becomes when it is emitted as `sendMessage`. -/
def toPayload (m : ClientMessage) : SendPayload :=
  { chatId := some m.chatId, sender := some m.sender, content := some m.content,
    replyTo := m.replyTo, type := some m.type, status := some m.status,
    createdAt := some m.createdAt, _localId := m._localId }

/-- The `setMessages` reducer applied after a queued item was emitted. -/
def markSent (m : List ClientMessage) (qm : ClientMessage) : List ClientMessage :=
  m.map (fun mm => if sameLocal mm qm then { mm with status := "sent" } else mm)

/-- The flush loop `for (const qm of q)`.  `emitThrows k` tells whether the
emission of the item at index `k` throws.  Returns the state after all queued
state updates and the payloads that were emitted. -/
def flushItems (emitThrows : Nat → Bool) :
    Nat → List ClientMessage → ClientState → ClientState × List ClientMessage
  | _, [], st => (st, [])
  | k, qm :: rest, st =>
    if emitThrows k then
      flushItems emitThrows (k + 1) rest { st with queuedMessages := st.queuedMessages ++ [qm] }
    else
      let r := flushItems emitThrows (k + 1) rest { st with messages := markSent st.messages qm }
      (r.1, qm :: r.2)

/-- The flush of the `connect` handler (lines 70-87); `queuedMessages` is the
queue the handler sees, that is the value its closure captured when
`connectSocket` ran, and `st` is the state its updates are applied to. -/
def flushOnConnect (emitThrows : Nat → Bool) (queuedMessages : List ClientMessage)
    (st : ClientState) : ClientState × List ClientMessage :=
  if queuedMessages.length > 0 then
    flushItems emitThrows 0 queuedMessages { st with queuedMessages := [] }
  else (st, [])

/-- The flush of the "Resend queued" button (lines 301-318). -/
def resendQueued (socketConnected : Bool) (emitThrows : Nat → Bool)
    (queuedMessages : List ClientMessage) (st : ClientState) :
    ClientState × List ClientMessage :=
  if !socketConnected then (st, [])
  else flushItems emitThrows 0 queuedMessages { st with queuedMessages := [] }

end Client

/-! ## Observations on emits and queues, used to state the properties -/

/-- The messages of the `receiveMessage` events emitted to one socket, in order. -/
def emittedToSocket (emits : List Emit) (socketId : String) : List WireMessage :=
  emits.filterMap (fun e =>
    match e.target, e.event with
    | .socket sid, .receiveMessage msg => if sid == socketId then some msg else none
    | _, _ => none)

/-- The number of `messageDelivered` events that carry the message identifier. -/
def ackCount (emits : List Emit) (messageId : String) : Nat :=
  (emits.filter (fun e =>
    match e.event with
    | .messageDelivered mid _ => mid == messageId
    | _ => false)).length

/-- The items of a queue whose own emission throws, in queue order; `k` is the
index of the first item. -/
def Client.failedItems (emitThrows : Nat → Bool) :
    Nat → List Client.ClientMessage → List Client.ClientMessage
  | _, [] => []
  | k, qm :: rest =>
    if emitThrows k then qm :: Client.failedItems emitThrows (k + 1) rest
    else Client.failedItems emitThrows (k + 1) rest

/-! ## Presence handlers (`chatSocket.js`, lines 39-66 and 134-144) -/

/-- `socket.join(room)`: the rooms of a socket form a set. -/
def Socket.join (socket : Socket) (room : String) : Socket :=
  { socket with rooms := sAdd socket.rooms room }

/-- The registration run by the `connection` handler; `userId` is the
`socket.userId` the handshake left on the socket, if any.  Returns the store,
the socket and the emits. -/
def onConnection (redisClient : Option Redis) (socket : Socket) (userId : Option String) :
    Option Redis × Socket × List Emit :=
  match userId with
  | some u =>
    if truthy u then
      ((addOnline redisClient u socket.id).1, socket.join u, [⟨.all, .userOnline u⟩])
    else (redisClient, socket, [])
  | none => (redisClient, socket, [])

/-- The `userOnline` handler; `userId` is the payload of the event. -/
def onUserOnline (redisClient : Option Redis) (socket : Socket) (userId : Option String) :
    Option Redis × Socket × List Emit :=
  match userId with
  | some u =>
    if !(truthy u) then (redisClient, socket, [])
    else ((addOnline redisClient u socket.id).1, socket.join u, [⟨.all, .userOnline u⟩])
  | none => (redisClient, socket, [])

/-- The `disconnect` handler: the store afterwards and the emits. -/
def onDisconnect (redisClient : Option Redis) (socket : Socket) : Option Redis × List Emit :=
  match removeOnline redisClient socket.id with
  | (store, some (userId, remaining)) =>
    if truthy userId && remaining == 0 then (store, [⟨.all, .userOffline userId⟩])
    else (store, [])
  | (store, none) => (store, [])

/-- The set `online:<userId>` as the store holds it (empty without a client). -/
def onlineSet (redisClient : Option Redis) (userId : String) : List String :=
  match redisClient with
  | some r => r.online userId
  | none => []

/-- The occupancy of a user: the number of socket ids in `online:<userId>`. -/
def occupancy (redisClient : Option Redis) (userId : String) : Nat :=
  sCard (onlineSet redisClient userId)

/-- The key `socket:<socketId>` as the store holds it. -/
def socketOwner (redisClient : Option Redis) (socketId : String) : Option String :=
  match redisClient with
  | some r => r.socket socketId
  | none => none

/-! ## Presence: the specification's reading against the store -/

/-- The Boolean `hasLiveRegistration` says what the specification says: the
sequence splits around an `addOnline u s` that no later `removeOnline s` follows. -/
theorem hasLiveRegistration_iff (ops : List PresenceOp) (u : String) :
    hasLiveRegistration ops u = true ↔
      ∃ pre s post, ops = pre ++ PresenceOp.addOnline u s :: post
        ∧ PresenceOp.removeOnline s ∉ post := by
  induction ops with
  | nil => simp [hasLiveRegistration]
  | cons op rest ih =>
    cases op with
    | addOnline userId socketId =>
      simp only [hasLiveRegistration, Bool.or_eq_true, Bool.and_eq_true, beq_iff_eq,
        Bool.not_eq_true', ih]
      constructor
      · rintro (⟨rfl, h⟩ | ⟨pre, s, post, rfl, h⟩)
        · refine ⟨[], socketId, rest, rfl, ?_⟩
          intro hmem
          simp [hmem] at h
        · exact ⟨_ :: pre, s, post, rfl, h⟩
      · rintro ⟨pre, s, post, heq, h⟩
        cases pre with
        | nil =>
          simp only [List.nil_append, List.cons.injEq, PresenceOp.addOnline.injEq] at heq
          obtain ⟨⟨rfl, rfl⟩, rfl⟩ := heq
          left
          refine ⟨rfl, ?_⟩
          simpa using h
        | cons x pre =>
          simp only [List.cons_append, List.cons.injEq] at heq
          exact Or.inr ⟨pre, s, post, heq.2, h⟩
    | removeOnline socketId =>
      simp only [hasLiveRegistration, ih]
      constructor
      · rintro ⟨pre, s, post, rfl, h⟩
        exact ⟨_ :: pre, s, post, rfl, h⟩
      · rintro ⟨pre, s, post, heq, h⟩
        cases pre with
        | nil => simp at heq
        | cons x pre =>
          simp only [List.cons_append, List.cons.injEq] at heq
          exact ⟨pre, s, post, heq.2, h⟩

theorem mem_sAdd (members : List String) (x y : String) :
    y ∈ sAdd members x ↔ y ∈ members ∨ y = x := by
  unfold sAdd
  split
  · constructor
    · exact Or.inl
    · rintro (h | rfl)
      · exact h
      · assumption
  · simp

theorem mem_sRem (members : List String) (x y : String) :
    y ∈ sRem members x ↔ y ∈ members ∧ y ≠ x := by
  simp [sRem]

/-- How a live registration changes when one more call is made. -/
theorem liveRegistration_concat (ops : List PresenceOp) (op : PresenceOp) (u s : String) :
    liveRegistration (ops ++ [op]) u s ↔
      (liveRegistration ops u s ∧ op ≠ .removeOnline s) ∨ op = .addOnline u s := by
  constructor
  · rintro ⟨pre, post, heq, hpost⟩
    rcases List.eq_nil_or_concat post with rfl | ⟨post', x, rfl⟩
    · right
      have h := List.append_inj' (show ops ++ [op] = pre ++ [PresenceOp.addOnline u s] from heq)
        rfl
      simpa using h.2
    · left
      rw [List.concat_eq_append] at heq hpost
      have h := List.append_inj'
        (show ops ++ [op] = (pre ++ PresenceOp.addOnline u s :: post') ++ [x] by
          rw [heq]; simp) rfl
      have hx : op = x := by simpa using h.2
      subst hx
      simp only [List.mem_append, List.mem_singleton, not_or] at hpost
      exact ⟨⟨pre, post', h.1, hpost.1⟩, fun hop => hpost.2 hop.symm⟩
  · rintro (⟨⟨pre, post, rfl, hpost⟩, hop⟩ | rfl)
    · refine ⟨pre, post ++ [op], by simp, ?_⟩
      simp only [List.mem_append, List.mem_singleton, not_or]
      exact ⟨hpost, fun h => hop h.symm⟩
    · exact ⟨ops, [], rfl, by simp⟩

theorem liveRegistration_mem (ops : List PresenceOp) (u s : String)
    (h : liveRegistration ops u s) : PresenceOp.addOnline u s ∈ ops := by
  obtain ⟨pre, post, rfl, _⟩ := h
  simp

theorem runPresence_concat (redisClient : Option Redis) (ops : List PresenceOp)
    (op : PresenceOp) :
    runPresence redisClient (ops ++ [op]) = op.apply (runPresence redisClient ops) := by
  simp [runPresence, List.foldl_append]

/-- The two mappings mirror the live registrations, as long as no socket id is
registered for two different users and no user id is empty. -/
theorem presence_invariant (ops : List PresenceOp)
    (hone : ∀ u u' s, PresenceOp.addOnline u s ∈ ops → PresenceOp.addOnline u' s ∈ ops → u = u')
    (htruthy : ∀ u s, PresenceOp.addOnline u s ∈ ops → truthy u = true) :
    ∃ r, runPresence (some Redis.init) ops = some r
      ∧ (∀ u s, s ∈ r.online u ↔ liveRegistration ops u s)
      ∧ (∀ u s, r.socket s = some u ↔ liveRegistration ops u s) := by
  induction ops using List.reverseRecOn with
  | nil =>
    refine ⟨Redis.init, rfl, ?_, ?_⟩
    · intro u s
      simp [Redis.init, liveRegistration]
    · intro u s
      simp [Redis.init, liveRegistration]
  | append_singleton ops op ih =>
    obtain ⟨r, hr, honline, hsocket⟩ := ih
      (fun u u' s h h' => hone u u' s (List.mem_append_left _ h) (List.mem_append_left _ h'))
      (fun u s h => htruthy u s (List.mem_append_left _ h))
    rw [runPresence_concat, hr]
    cases op with
    | addOnline userId socketId =>
      refine ⟨_, rfl, ?_, ?_⟩
      · intro u s
        rw [liveRegistration_concat]
        simp only [Function.update_apply, ne_eq, reduceCtorEq, not_false_eq_true, and_true,
          PresenceOp.addOnline.injEq]
        by_cases hu : u = userId
        · subst hu
          simp only [if_true, mem_sAdd, honline, true_and]
          constructor
          · rintro (h | h)
            · exact Or.inl h
            · exact Or.inr h.symm
          · rintro (h | h)
            · exact Or.inl h
            · exact Or.inr h.symm
        · simp only [hu, if_false, honline]
          constructor
          · exact Or.inl
          · rintro (h | h)
            · exact h
            · exact absurd h.1.symm hu
      · intro u s
        rw [liveRegistration_concat]
        simp only [Function.update_apply, ne_eq, reduceCtorEq, not_false_eq_true, and_true,
          PresenceOp.addOnline.injEq]
        by_cases hs : s = socketId
        · subst hs
          simp only [if_true, Option.some.injEq]
          constructor
          · intro h
            exact Or.inr ⟨h, trivial⟩
          · rintro (h | h)
            · exact hone userId u s (by simp)
                (List.mem_append_left _ (liveRegistration_mem ops u s h))
            · exact h.1
        · simp only [hs, if_false, hsocket]
          constructor
          · exact Or.inl
          · rintro (h | h)
            · exact h
            · exact absurd h.2.symm hs
    | removeOnline socketId =>
      have hstep : ∀ u s, liveRegistration (ops ++ [PresenceOp.removeOnline socketId]) u s ↔
          liveRegistration ops u s ∧ s ≠ socketId := by
        intro u s
        rw [liveRegistration_concat]
        simp only [ne_eq, PresenceOp.removeOnline.injEq, reduceCtorEq, or_false]
        constructor
        · rintro ⟨h, hne⟩
          exact ⟨h, fun h' => hne h'.symm⟩
        · rintro ⟨h, hne⟩
          exact ⟨h, fun h' => hne h'.symm⟩
      cases hget : r.socket socketId with
      | none =>
        have hnone : ∀ u, ¬ liveRegistration ops u socketId := by
          intro u h
          rw [← hsocket, hget] at h
          cases h
        refine ⟨r, by simp [PresenceOp.apply, removeOnline, hget], ?_, ?_⟩
        · intro u s
          rw [hstep, honline]
          constructor
          · intro h
            exact ⟨h, fun hs => hnone u (hs ▸ h)⟩
          · exact fun h => h.1
        · intro u s
          rw [hstep, hsocket]
          constructor
          · intro h
            exact ⟨h, fun hs => hnone u (hs ▸ h)⟩
          · exact fun h => h.1
      | some userId =>
        have hlive : liveRegistration ops userId socketId := (hsocket _ _).mp hget
        have htr : truthy userId = true :=
          htruthy userId socketId (List.mem_append_left _ (liveRegistration_mem _ _ _ hlive))
        have huniq : ∀ u, liveRegistration ops u socketId → u = userId := by
          intro u h
          have := (hsocket u socketId).mpr h
          rw [hget] at this
          exact (Option.some.inj this).symm
        have hrun : PresenceOp.apply (some r) (PresenceOp.removeOnline socketId)
            = some ⟨Function.update r.online userId (sRem (r.online userId) socketId),
                Function.update r.socket socketId none⟩ := by
          simp [PresenceOp.apply, removeOnline, hget, htr]
        refine ⟨_, hrun, ?_, ?_⟩
        · intro u s
          rw [hstep]
          simp only [Function.update_apply]
          by_cases hu : u = userId
          · subst hu
            simp only [if_true, mem_sRem, honline]
          · simp only [hu, if_false, honline]
            constructor
            · intro h
              exact ⟨h, fun hs => hu (huniq u (hs ▸ h))⟩
            · exact fun h => h.1
        · intro u s
          rw [hstep]
          simp only [Function.update_apply]
          by_cases hs : s = socketId
          · simp [hs]
          · simp only [hs, if_false, hsocket, ne_eq, not_false_eq_true, and_true]

/-- The presence property of the specification, on the sequences in which no
socket id is registered for two different users and no user id is empty:
`isUserOnline(u)` is true exactly when `u` has a live registration. -/
theorem isUserOnline_iff_hasLiveRegistration (ops : List PresenceOp)
    (hone : ∀ u u' s, PresenceOp.addOnline u s ∈ ops → PresenceOp.addOnline u' s ∈ ops → u = u')
    (htruthy : ∀ u s, PresenceOp.addOnline u s ∈ ops → truthy u = true) (u : String) :
    isUserOnline (runPresence (some Redis.init) ops) u = true ↔
      hasLiveRegistration ops u = true := by
  obtain ⟨r, hr, honline, _⟩ := presence_invariant ops hone htruthy
  rw [hr, hasLiveRegistration_iff]
  simp only [isUserOnline, sCard, gt_iff_lt, decide_eq_true_eq, List.length_pos_iff_exists_mem,
    honline]
  constructor
  · rintro ⟨s, pre, post, h⟩
    exact ⟨pre, s, post, h⟩
  · rintro ⟨pre, s, post, h⟩
    exact ⟨s, pre, post, h⟩

/-- C1, evaluated on the code: after `addOnline("A","s1")`, `addOnline("B","s1")`
and `removeOnline("s1")` the reverse mapping named only `B`, so `s1` stays in
the set of `A`: `isUserOnline("A")` is true although the only socket id
registered for `A` was unregistered afterwards. -/
theorem C1_stale_online_after_reregistration :
    isUserOnline (runPresence (some Redis.init)
        [.addOnline "A" "s1", .addOnline "B" "s1", .removeOnline "s1"]) "A" = true
      ∧ hasLiveRegistration
        [.addOnline "A" "s1", .addOnline "B" "s1", .removeOnline "s1"] "A" = false := by
  decide

/-! ## `sendMessage`: what is stored and what is emitted -/

theorem Message.findById_append_fresh (store : List Message) (doc : Message)
    (hfresh : ∀ m ∈ store, m._id ≠ doc._id) :
    Message.findById (store ++ [doc]) doc._id = some doc := by
  unfold Message.findById
  rw [List.find?_append]
  have hnone : List.find? (fun m => m._id == doc._id) store = none := by
    rw [List.find?_eq_none]
    intro m hm
    simpa using hfresh m hm
  simp [hnone]

/-- The handler unfolded for a payload with a room, a `createdAt` the schema
can cast, a fresh identifier, and a sender that `populate` resolves. -/
theorem sendMessage_eq (redisClient : Option Redis) (users : String → SenderLookup)
    (chats : String → Option (List String))
    (store : List Message) (oid : String) (now : Nat) (data : SendPayload) (chatId : String)
    (w : WireSender)
    (hchat : data.chatId = some chatId) (hdate : dateCastable data.createdAt = true)
    (hfresh : ∀ m ∈ store, m._id ≠ oid) (hpop : populateSender users data.sender = some w) :
    sendMessage redisClient users chats store oid now data =
      if (fanOut redisClient (jsString data.sender) (sentMessage oid now chatId data w)
          ((chats chatId).getD [])).1 then
        (Message.setDelivered (store ++ [Message.ofPayload oid now chatId data]) oid,
          ⟨.room chatId, .receiveMessage (sentMessage oid now chatId data w)⟩
            :: (fanOut redisClient (jsString data.sender) (sentMessage oid now chatId data w)
                ((chats chatId).getD [])).2
            ++ [⟨.room (jsString data.sender), .messageDelivered oid "multiple"⟩])
      else
        (store ++ [Message.ofPayload oid now chatId data],
          ⟨.room chatId, .receiveMessage (sentMessage oid now chatId data w)⟩
            :: (fanOut redisClient (jsString data.sender) (sentMessage oid now chatId data w)
                ((chats chatId).getD [])).2) := by
  have hfind : Message.findById (store ++ [Message.ofPayload oid now chatId data])
      (Message.ofPayload oid now chatId data)._id
      = some (Message.ofPayload oid now chatId data) :=
    Message.findById_append_fresh store _ hfresh
  have hsender : (Message.ofPayload oid now chatId data).sender = data.sender := rfl
  simp only [sendMessage, Message.create, hchat, hdate, if_true, hfind, hsender, hpop,
    broadcast, sentMessage]
  rfl

/-- The handler when `populate` rejects: the message is persisted with the
status it was created with, and nothing is emitted. -/
theorem sendMessage_populate_rejects (redisClient : Option Redis)
    (users : String → SenderLookup) (chats : String → Option (List String))
    (store : List Message) (oid : String) (now : Nat) (data : SendPayload) (chatId : String)
    (hchat : data.chatId = some chatId) (hdate : dateCastable data.createdAt = true)
    (hfresh : ∀ m ∈ store, m._id ≠ oid) (hpop : populateSender users data.sender = none) :
    sendMessage redisClient users chats store oid now data
      = (store ++ [Message.ofPayload oid now chatId data], []) := by
  have hfind : Message.findById (store ++ [Message.ofPayload oid now chatId data])
      (Message.ofPayload oid now chatId data)._id
      = some (Message.ofPayload oid now chatId data) :=
    Message.findById_append_fresh store _ hfresh
  have hsender : (Message.ofPayload oid now chatId data).sender = data.sender := rfl
  simp only [sendMessage, Message.create, hchat, hdate, if_true, hfind, hsender, hpop]

/-- The `delivered` flag of the participant loop. -/
theorem fanOut_flag (redisClient : Option Redis) (sender : String) (msg : WireMessage)
    (ps : List String) :
    (fanOut redisClient sender msg ps).1 = true ↔
      ∃ p ∈ ps, p ≠ sender ∧ isUserOnline redisClient p = true := by
  induction ps with
  | nil => simp [fanOut]
  | cons pid rest ih =>
    simp only [fanOut, List.mem_cons, exists_eq_or_imp]
    by_cases hs : pid = sender
    · simp [hs, ih]
    · by_cases ho : isUserOnline redisClient pid = true
      · simp [hs, ho]
      · simp [hs, ho, ih]

/-- Every emit of the participant loop goes to the scope of a participant that
is not the sender. -/
theorem fanOut_target (redisClient : Option Redis) (sender : String) (msg : WireMessage)
    (ps : List String) (e : Emit) (he : e ∈ (fanOut redisClient sender msg ps).2) :
    ∃ p ∈ ps, p ≠ sender ∧ e.target = .room p := by
  induction ps with
  | nil => simp [fanOut] at he
  | cons pid rest ih =>
    simp only [fanOut] at he
    by_cases hs : pid = sender
    · simp only [hs, beq_self_eq_true, if_true] at he
      obtain ⟨p, hp, h1, h2⟩ := ih he
      exact ⟨p, List.mem_cons_of_mem _ hp, h1, h2⟩
    · have hs' : (pid == sender) = false := by simpa using hs
      by_cases ho : isUserOnline redisClient pid = true
      · simp only [hs', ho, if_true, Bool.false_eq_true, if_false, List.mem_cons] at he
        rcases he with rfl | rfl | he
        · exact ⟨pid, List.mem_cons_self _ _, hs, rfl⟩
        · exact ⟨pid, List.mem_cons_self _ _, hs, rfl⟩
        · obtain ⟨p, hp, h1, h2⟩ := ih he
          exact ⟨p, List.mem_cons_of_mem _ hp, h1, h2⟩
      · simp only [hs', ho, Bool.false_eq_true, if_false] at he
        obtain ⟨p, hp, h1, h2⟩ := ih he
        exact ⟨p, List.mem_cons_of_mem _ hp, h1, h2⟩

/-- How often a connection receives the message from the participant loop: once
for every listed participant, other than the sender, that is online and whose
scope the connection joined. -/
theorem fanOut_receivedCount (redisClient : Option Redis) (sender : String)
    (msg : WireMessage) (ps : List String) (c : Socket) :
    receivedCount (fanOut redisClient sender msg ps).2 c (.receiveMessage msg) =
      (ps.filter (fun q => !(q == sender) && isUserOnline redisClient q
        && c.rooms.contains q)).length := by
  induction ps with
  | nil => simp [fanOut, receivedCount]
  | cons pid rest ih =>
    unfold receivedCount at ih ⊢
    simp only [fanOut, List.filter_cons]
    by_cases hs : pid = sender
    · simp [hs, ih]
    · have hs' : (pid == sender) = false := by simpa using hs
      by_cases ho : isUserOnline redisClient pid = true
      · by_cases hr : pid ∈ c.rooms
        · simp [hs', ho, hr, Target.reaches, List.filter_cons]
          simpa [Target.reaches] using ih
        · simp [hs', ho, hr, Target.reaches, List.filter_cons]
          simpa [Target.reaches] using ih
      · simp only [Bool.not_eq_true] at ho
        simp [hs', ho, ih]

theorem receivedCount_cons (e : Emit) (es : List Emit) (c : Socket) (ev : Event) :
    receivedCount (e :: es) c ev =
      (if e.target.reaches c && e.event == ev then 1 else 0) + receivedCount es c ev := by
  unfold receivedCount
  by_cases h : (e.target.reaches c && e.event == ev) = true
  · simp [List.filter_cons, h, Nat.add_comm]
  · simp only [Bool.not_eq_true] at h
    simp [List.filter_cons, h]

theorem receivedCount_append (es fs : List Emit) (c : Socket) (ev : Event) :
    receivedCount (es ++ fs) c ev = receivedCount es c ev + receivedCount fs c ev := by
  simp [receivedCount]

/-- The count of one online participant in a duplicate-free participant list,
for a connection that joined no other participant's scope. -/
theorem filter_single (redisClient : Option Redis) (sender p : String) (ps : List String)
    (c : Socket) (hnodup : ps.Nodup) (hp : p ∈ ps) (hne : p ≠ sender)
    (hon : isUserOnline redisClient p = true) (hjoin : p ∈ c.rooms)
    (honly : ∀ q ∈ ps, q ∈ c.rooms → q = p) :
    (ps.filter (fun q => !(q == sender) && isUserOnline redisClient q
      && c.rooms.contains q)).length = 1 := by
  have hcongr : ps.filter (fun q => !(q == sender) && isUserOnline redisClient q
      && c.rooms.contains q) = ps.filter (fun q => q == p) := by
    apply List.filter_congr
    intro q hq
    by_cases hqp : q = p
    · subst hqp
      simp [hne, hon, hjoin]
    · have hnot : q ∉ c.rooms := fun h => hqp (honly q hq h)
      simp [hqp, hnot]
  rw [hcongr, ← List.countP_eq_length_filter]
  exact List.count_eq_one_of_mem hnodup hp

/-- C2 fails as stated: bob is an online participant, his connection `s2` joined
both his user scope and the room, and it receives the message twice.  The
sender is a user the User collection knows, so `populate` resolves it. -/
theorem C2_double_delivery :
    isUserOnline (addOnline (some Redis.init) "65f000000000000000000b02" "s2").1
        "65f000000000000000000b02" = true
      ∧ receivedCount
          (sendMessage (addOnline (some Redis.init) "65f000000000000000000b02" "s2").1
            (fun id =>
              if id == "65f000000000000000000a01" then .found "Alice"
              else if id == "65f000000000000000000b02" then .found "Bob"
              else .castError)
            (fun c =>
              if c == "65f000000000000000000c03" then
                some ["65f000000000000000000a01", "65f000000000000000000b02"]
              else none)
            [] "65f000000000000000000d04" 0
            { chatId := some "65f000000000000000000c03",
              sender := some "65f000000000000000000a01", content := some "hi",
              replyTo := none, type := none, status := none, createdAt := none,
              _localId := none }).2
          ⟨"s2", ["65f000000000000000000b02", "65f000000000000000000c03"]⟩
          (.receiveMessage
            ⟨⟨"65f000000000000000000d04", "65f000000000000000000c03",
                some "65f000000000000000000a01", some "hi", none,
                "text", "sent", 0⟩,
              none, .user "65f000000000000000000a01" "Alice"⟩) = 2 := by
  decide

/-- C2 as amended: when `populate` resolves the sender, a connection that joined
the scope of an online participant other than the sender (and of no other
participant) receives the message once from the user-scoped emit, and once
more when it also joined the room: two `receiveMessage` events if it joined
`data.chatId`, one otherwise. -/
theorem C2_receive_count (redisClient : Option Redis) (users : String → SenderLookup)
    (chats : String → Option (List String))
    (store : List Message) (oid : String) (now : Nat) (data : SendPayload) (chatId p : String)
    (ps : List String) (c : Socket) (w : WireSender)
    (hchat : data.chatId = some chatId) (hdate : dateCastable data.createdAt = true)
    (hfresh : ∀ m ∈ store, m._id ≠ oid) (hpop : populateSender users data.sender = some w)
    (hps : chats chatId = some ps) (hnodup : ps.Nodup) (hp : p ∈ ps)
    (hne : p ≠ jsString data.sender) (hon : isUserOnline redisClient p = true)
    (hjoin : p ∈ c.rooms) (honly : ∀ q ∈ ps, q ∈ c.rooms → q = p) :
    receivedCount (sendMessage redisClient users chats store oid now data).2 c
        (.receiveMessage (sentMessage oid now chatId data w))
      = if chatId ∈ c.rooms then 2 else 1 := by
  have hfan := fanOut_receivedCount redisClient (jsString data.sender)
    (sentMessage oid now chatId data w) ps c
  rw [filter_single redisClient (jsString data.sender) p ps c hnodup hp hne hon hjoin honly]
    at hfan
  have hflag : (fanOut redisClient (jsString data.sender) (sentMessage oid now chatId data w)
      ps).1 = true := (fanOut_flag _ _ _ _).mpr ⟨p, hp, hne, hon⟩
  rw [sendMessage_eq redisClient users chats store oid now data chatId w hchat hdate hfresh
    hpop, hps]
  simp only [Option.getD_some, hflag, if_true]
  rw [receivedCount_append, receivedCount_cons, hfan]
  by_cases hroom : chatId ∈ c.rooms
  · simp [hroom, Target.reaches, receivedCount]
  · simp [hroom, Target.reaches, receivedCount]

/-- C2 as amended, at bob's connection that joined only his user scope. -/
theorem C2_receive_count_witness :
    receivedCount
        (sendMessage (addOnline (some Redis.init) "65f000000000000000000b02" "s2").1
            (fun id =>
              if id == "65f000000000000000000a01" then .found "Alice"
              else if id == "65f000000000000000000b02" then .found "Bob"
              else .castError)
            (fun c =>
              if c == "65f000000000000000000c03" then
                some ["65f000000000000000000a01", "65f000000000000000000b02"]
              else none)
            [] "65f000000000000000000d04" 0
            { chatId := some "65f000000000000000000c03",
              sender := some "65f000000000000000000a01", content := some "hi",
              replyTo := none, type := none, status := none, createdAt := none,
              _localId := none }).2
        ⟨"s2", ["65f000000000000000000b02"]⟩
        (.receiveMessage (sentMessage "65f000000000000000000d04" 0 "65f000000000000000000c03"
            { chatId := some "65f000000000000000000c03",
              sender := some "65f000000000000000000a01", content := some "hi",
              replyTo := none, type := none, status := none, createdAt := none,
              _localId := none }
            (.user "65f000000000000000000a01" "Alice")))
      = if "65f000000000000000000c03" ∈ (⟨"s2", ["65f000000000000000000b02"]⟩ : Socket).rooms
        then 2 else 1 :=
  C2_receive_count _ _ _ [] "65f000000000000000000d04" 0 _ "65f000000000000000000c03"
    "65f000000000000000000b02" ["65f000000000000000000a01", "65f000000000000000000b02"]
    ⟨"s2", ["65f000000000000000000b02"]⟩ (.user "65f000000000000000000a01" "Alice")
    rfl rfl (by simp) (by decide) (by decide) (by decide) (by decide) (by decide) (by decide)
    (by decide) (by decide)

theorem Message.findById_setDelivered (store : List Message) (id : String) :
    Message.findById (Message.setDelivered store id) id
      = (Message.findById store id).map (fun m => { m with status := "delivered" }) := by
  induction store with
  | nil => rfl
  | cons m rest ih =>
    unfold Message.findById Message.setDelivered at ih ⊢
    by_cases h : m._id = id
    · simp only [List.map_cons, h, beq_self_eq_true, if_true, List.find?_cons, Option.map_some']
    · have h' : (m._id == id) = false := by simpa using h
      simp only [List.map_cons, h', Bool.false_eq_true, if_false, List.find?_cons]
      exact ih

/-- C3 fails as stated: the sender "alice" is no value the User collection can
look up, so `populate` rejects after the message is persisted; bob, a
participant other than the sender, is online, and still the stored status is
"sent" and no event is emitted. -/
theorem C3_sent_when_populate_rejects :
    otherParticipantOnline (addOnline (some Redis.init) "65f000000000000000000b02" "s2").1
        ["65f000000000000000000b02"] (jsString (some "alice"))
      ∧ Message.findById
          (sendMessage (addOnline (some Redis.init) "65f000000000000000000b02" "s2").1
            (fun id =>
              if id == "65f000000000000000000a01" then .found "Alice"
              else if id == "65f000000000000000000b02" then .found "Bob"
              else .castError)
            (fun c =>
              if c == "65f000000000000000000c03" then some ["65f000000000000000000b02"]
              else none)
            [] "65f000000000000000000d04" 0
            { chatId := some "65f000000000000000000c03", sender := some "alice",
              content := some "hi", replyTo := none, type := none, status := none,
              createdAt := none, _localId := none }).1
          "65f000000000000000000d04"
        = some ⟨"65f000000000000000000d04", "65f000000000000000000c03", some "alice", some "hi",
            none, "text", "sent", 0⟩
      ∧ (sendMessage (addOnline (some Redis.init) "65f000000000000000000b02" "s2").1
            (fun id =>
              if id == "65f000000000000000000a01" then .found "Alice"
              else if id == "65f000000000000000000b02" then .found "Bob"
              else .castError)
            (fun c =>
              if c == "65f000000000000000000c03" then some ["65f000000000000000000b02"]
              else none)
            [] "65f000000000000000000d04" 0
            { chatId := some "65f000000000000000000c03", sender := some "alice",
              content := some "hi", replyTo := none, type := none, status := none,
              createdAt := none, _localId := none }).2 = [] :=
  ⟨⟨"65f000000000000000000b02", by decide, by decide, by decide⟩, by decide, by decide⟩

/-- C3 as amended: for a persisted payload that sets no status, the stored
status of the new message is "delivered" exactly when `populate` resolves the
sender and some participant other than the sender is online, and "sent"
otherwise; the aggregate `messageDelivered` to the sender is emitted in exactly
the same case. -/
theorem C3_delivered_iff_populated_and_other_online (redisClient : Option Redis)
    (users : String → SenderLookup) (chats : String → Option (List String))
    (store : List Message) (oid : String) (now : Nat) (data : SendPayload) (chatId : String)
    (hstatus : data.status = none) (hchat : data.chatId = some chatId)
    (hdate : dateCastable data.createdAt = true) (hfresh : ∀ m ∈ store, m._id ≠ oid) :
    (∃ m, Message.findById (sendMessage redisClient users chats store oid now data).1 oid
          = some m
        ∧ (m.status = "delivered" ↔
            populateSender users data.sender ≠ none
              ∧ otherParticipantOnline redisClient ((chats chatId).getD [])
                  (jsString data.sender))
        ∧ (m.status = "sent" ↔
            ¬ (populateSender users data.sender ≠ none
              ∧ otherParticipantOnline redisClient ((chats chatId).getD [])
                  (jsString data.sender))))
      ∧ ((⟨.room (jsString data.sender), .messageDelivered oid "multiple"⟩ : Emit)
            ∈ (sendMessage redisClient users chats store oid now data).2 ↔
          populateSender users data.sender ≠ none
            ∧ otherParticipantOnline redisClient ((chats chatId).getD [])
                (jsString data.sender)) := by
  have hfind : Message.findById (store ++ [Message.ofPayload oid now chatId data]) oid
      = some (Message.ofPayload oid now chatId data) :=
    Message.findById_append_fresh store (Message.ofPayload oid now chatId data) hfresh
  have hsent : (Message.ofPayload oid now chatId data).status = "sent" := by
    simp [Message.ofPayload, hstatus]
  cases hpop : populateSender users data.sender with
  | none =>
    rw [sendMessage_populate_rejects redisClient users chats store oid now data chatId hchat
      hdate hfresh hpop]
    refine ⟨⟨_, hfind, ?_, ?_⟩, ?_⟩
    · simp [hsent]
    · simp [hsent]
    · simp
  | some w =>
    have hflag := fanOut_flag redisClient (jsString data.sender)
      (sentMessage oid now chatId data w) ((chats chatId).getD [])
    rw [sendMessage_eq redisClient users chats store oid now data chatId w hchat hdate hfresh
      hpop]
    unfold otherParticipantOnline
    by_cases hd : (fanOut redisClient (jsString data.sender)
        (sentMessage oid now chatId data w) ((chats chatId).getD [])).1 = true
    · have hon := hflag.mp hd
      simp only [hd, if_true]
      refine ⟨⟨_, by rw [Message.findById_setDelivered, hfind]; rfl, ?_, ?_⟩, ?_⟩
      · simp [hon]
      · simp only [ne_eq, reduceCtorEq, not_false_eq_true, hon, and_self, not_true_eq_false,
          iff_false]
        decide
      · simp [hon]
    · have hon : ¬ ∃ p ∈ (chats chatId).getD [], p ≠ jsString data.sender
          ∧ isUserOnline redisClient p = true := fun h => hd (hflag.mpr h)
      simp only [hd, Bool.false_eq_true, if_false]
      refine ⟨⟨_, hfind, ?_, ?_⟩, ?_⟩
      · simp only [hon, and_false, iff_false]
        simp [hsent]
      · simp only [hon, and_false, not_false_eq_true, iff_true]
        exact hsent
      · simp only [hon, and_false, iff_false, List.mem_cons, not_or]
        refine ⟨by simp, ?_⟩
        intro hmem
        obtain ⟨p, _, hne, htarget⟩ := fanOut_target _ _ _ _ _ hmem
        simp only [Target.room.injEq] at htarget
        exact hne htarget.symm

/-- C3 as amended, at a payload from a known user to a chat whose other
participant bob is online: the stored status is "delivered". -/
theorem C3_delivered_iff_populated_and_other_online_witness :
    ∃ m, Message.findById
          (sendMessage (addOnline (some Redis.init) "65f000000000000000000b02" "s2").1
            (fun id =>
              if id == "65f000000000000000000a01" then .found "Alice"
              else if id == "65f000000000000000000b02" then .found "Bob"
              else .castError)
            (fun c =>
              if c == "65f000000000000000000c03" then
                some ["65f000000000000000000a01", "65f000000000000000000b02"]
              else none)
            [] "65f000000000000000000d04" 0
            { chatId := some "65f000000000000000000c03",
              sender := some "65f000000000000000000a01", content := some "hi",
              replyTo := none, type := none, status := none, createdAt := none,
              _localId := none }).1
          "65f000000000000000000d04" = some m
      ∧ m.status = "delivered" :=
  have h := C3_delivered_iff_populated_and_other_online
    (addOnline (some Redis.init) "65f000000000000000000b02" "s2").1
    (fun id =>
              if id == "65f000000000000000000a01" then .found "Alice"
              else if id == "65f000000000000000000b02" then .found "Bob"
              else .castError)
    (fun c =>
              if c == "65f000000000000000000c03" then
                some ["65f000000000000000000a01", "65f000000000000000000b02"]
              else none)
    [] "65f000000000000000000d04" 0
    { chatId := some "65f000000000000000000c03",
              sender := some "65f000000000000000000a01", content := some "hi",
              replyTo := none, type := none, status := none, createdAt := none,
              _localId := none }
    "65f000000000000000000c03" rfl rfl rfl (by simp)
  h.1.elim (fun m hm => ⟨m, hm.1, hm.2.1.mpr
    ⟨by decide, "65f000000000000000000b02", by decide, by decide, by decide⟩⟩)

/-- C4 fails as stated: a payload with a room but neither sender nor content is
persisted and broadcast to the room. -/
theorem C4_missing_sender_and_content_is_persisted :
    sendMessage none (fun _ => .castError) (fun _ => none) [] "m1" 0
        { chatId := some "global-chat", sender := none, content := none, replyTo := none,
          type := none, status := none, createdAt := none, _localId := none }
      = ([⟨"m1", "global-chat", none, none, none, "text", "sent", 0⟩],
          [⟨.room "global-chat",
            .receiveMessage ⟨⟨"m1", "global-chat", none, none, none, "text", "sent", 0⟩,
              none, .stored⟩⟩]) := by
  decide

/-- C4 as amended: a payload that lacks the room identifier is not persisted
and nothing is emitted. -/
theorem C4_missing_chatId_persists_nothing (redisClient : Option Redis)
    (users : String → SenderLookup) (chats : String → Option (List String))
    (store : List Message) (oid : String) (now : Nat)
    (data : SendPayload) (hchat : data.chatId = none) :
    sendMessage redisClient users chats store oid now data = (store, []) := by
  simp [sendMessage, hchat]

/-- C4 as amended, at a payload with sender and content but no room. -/
theorem C4_missing_chatId_persists_nothing_witness :
    sendMessage none (fun _ => .castError) (fun _ => none)
        [⟨"m0", "global-chat", none, none, none, "text", "sent", 0⟩]
        "m1" 1
        { chatId := none, sender := some "alice", content := some "hi", replyTo := none,
          type := none, status := none, createdAt := none, _localId := none }
      = ([⟨"m0", "global-chat", none, none, none, "text", "sent", 0⟩], []) :=
  C4_missing_chatId_persists_nothing none (fun _ => .castError) (fun _ => none) _ "m1" 1 _ rfl

/-- C5, evaluated on the code: a message composed while disconnected carries
status "queued"; the flush on reconnect emits it unchanged and the handler
stores it with status "queued", which is neither "sent" nor "delivered". -/
theorem C5_queued_status_is_persisted :
    ((Client.flushOnConnect (fun _ => false)
        (Client.sendMessage false false "hi" (some "u1") none 7 "abc" ⟨[], []⟩).1.queuedMessages
        (Client.sendMessage false false "hi" (some "u1") none 7 "abc" ⟨[], []⟩).1).2.map
      (fun qm => (sendMessage none (fun _ => .castError) (fun _ => none) [] "m1" 9
        (Client.toPayload qm)).1.map
        (fun m => m.status))) = [["queued"]] := by
  decide

/-! ## `joinChat`: backfill -/

theorem backfill_emittedToSocket (socketId userId : String) (us store : List Message) :
    emittedToSocket (backfill socketId userId us store).2 socketId
      = us.map (fun m => (⟨m, none, .stored⟩ : WireMessage)) := by
  induction us generalizing store with
  | nil => rfl
  | cons m rest ih =>
    have := ih (Message.setDelivered store m._id)
    unfold emittedToSocket at this ⊢
    simp only [backfill, List.filterMap_cons, beq_self_eq_true, if_true, List.map_cons]
    rw [this]

theorem backfill_ackCount (socketId userId : String) (us store : List Message) (id : String) :
    ackCount (backfill socketId userId us store).2 id
      = List.count id (us.map (fun m => m._id)) := by
  induction us generalizing store with
  | nil => rfl
  | cons m rest ih =>
    have := ih (Message.setDelivered store m._id)
    unfold ackCount at this ⊢
    by_cases h : m._id = id
    · subst h
      simp only [backfill, List.filter_cons, beq_self_eq_true, if_true, List.length_cons,
        List.map_cons, List.count_cons_self, Bool.false_eq_true, if_false, this]
    · have h' : (m._id == id) = false := by simpa using h
      simp only [backfill, List.filter_cons, h', Bool.false_eq_true, if_false, List.map_cons,
        this, List.count_cons_of_ne (Ne.symm h)]

theorem backfill_ack_mem (socketId userId : String) (us store : List Message) (m : Message)
    (hm : m ∈ us) :
    (⟨.room (jsString m.sender), .messageDelivered m._id userId⟩ : Emit)
      ∈ (backfill socketId userId us store).2 := by
  induction us generalizing store with
  | nil => cases hm
  | cons u rest ih =>
    simp only [backfill, List.mem_cons]
    rcases List.mem_cons.mp hm with rfl | h
    · exact Or.inr (Or.inl rfl)
    · exact Or.inr (Or.inr (ih _ h))

/-- Looking up any identifier after a delivered update. -/
theorem Message.findById_setDelivered_any (store : List Message) (id x : String) :
    Message.findById (Message.setDelivered store id) x
      = (Message.findById store x).map
          (fun m => if m._id == id then { m with status := "delivered" } else m) := by
  induction store with
  | nil => rfl
  | cons m rest ih =>
    unfold Message.findById Message.setDelivered at ih ⊢
    simp only [List.map_cons, List.find?_cons]
    have hid : (if (m._id == id) = true then { m with status := "delivered" } else m)._id
        = m._id := by
      split <;> rfl
    rw [hid]
    by_cases h : m._id = x
    · simp [h]
    · have h' : (m._id == x) = false := by simpa using h
      simp only [h']
      exact ih

/-- A message found delivered stays found and delivered through the loop. -/
theorem backfill_keeps_delivered (socketId userId : String) (us store : List Message)
    (x : String) (h : ∃ m, Message.findById store x = some m ∧ m.status = "delivered") :
    ∃ m, Message.findById (backfill socketId userId us store).1 x = some m
      ∧ m.status = "delivered" := by
  induction us generalizing store with
  | nil => exact h
  | cons u rest ih =>
    apply ih
    obtain ⟨m, hm, hs⟩ := h
    rw [Message.findById_setDelivered_any, hm]
    refine ⟨_, rfl, ?_⟩
    by_cases hid : (m._id == u._id) = true
    · simp only [hid, if_true]
    · simp only [hid, if_false]
      exact hs

/-- Every message handed to the loop that is in the store is delivered after it. -/
theorem backfill_delivers (socketId userId : String) (us store : List Message)
    (hsome : ∀ u ∈ us, ∃ m, Message.findById store u._id = some m)
    (u : Message) (hu : u ∈ us) :
    ∃ m, Message.findById (backfill socketId userId us store).1 u._id = some m
      ∧ m.status = "delivered" := by
  induction us generalizing store with
  | nil => cases hu
  | cons v rest ih =>
    rcases List.mem_cons.mp hu with rfl | h
    · simp only [backfill]
      apply backfill_keeps_delivered
      obtain ⟨m, hm⟩ := hsome u (List.mem_cons_self _ _)
      rw [Message.findById_setDelivered, hm]
      exact ⟨_, rfl, rfl⟩
    · simp only [backfill]
      apply ih _ _ h
      intro w hw
      obtain ⟨m, hm⟩ := hsome w (List.mem_cons_of_mem _ hw)
      rw [Message.findById_setDelivered_any, hm]
      exact ⟨_, rfl⟩

theorem Message.findById_of_mem (store : List Message) (u : Message) (hu : u ∈ store) :
    ∃ m, Message.findById store u._id = some m := by
  unfold Message.findById
  cases h : List.find? (fun m => m._id == u._id) store with
  | some m => exact ⟨m, rfl⟩
  | none =>
    rw [List.find?_eq_none] at h
    exact absurd (by simp) (h u hu)

/-- The handler unfolded for a payload object with truthy room and user. -/
theorem joinChat_eq (store : List Message) (socketId chatId userId : String)
    (hroom : truthy chatId = true) (huser : truthy userId = true) :
    joinChat store socketId (.fields (some chatId) (some userId))
      = backfill socketId userId (Message.findUndelivered store chatId userId) store := by
  simp [joinChat, JoinPayload.user, JoinPayload.room, truthyOpt, hroom, huser]

/-- C6 fails as stated: a message composed offline at time 3 and flushed after
a message created at time 5 is stored after it, and the backfill replays the
two in stored order, creation times 5 then 3. -/
theorem C6_backfill_not_in_creation_order :
    (emittedToSocket
        (joinChat
          (sendMessage none (fun _ => .castError) (fun _ => none)
            (sendMessage none (fun _ => .castError) (fun _ => none) [] "m1" 10
              { chatId := some "global-chat", sender := some "alice", content := some "first",
                replyTo := none, type := none, status := none, createdAt := some 5,
                _localId := none }).1
            "m2" 11
            { chatId := some "global-chat", sender := some "carol", content := some "second",
              replyTo := none, type := none, status := none, createdAt := some 3,
              _localId := none }).1
          "s9" (.fields (some "global-chat") (some "bob"))).2 "s9").map
        (fun w => w.doc.createdAt) = [5, 3]
      ∧ ¬ List.Sorted (fun a b : Nat => a ≤ b) [5, 3] := by
  decide

/-- C6 as amended: for a truthy room `R` and user `U`, the `receiveMessage`
events emitted to the joining socket carry exactly the stored messages with
chatId `R`, status other than "delivered" and sender other than `U`, each once,
in stored order (ascending creation time whenever the store is so ordered);
each of them is stored as "delivered" afterwards and exactly one
`messageDelivered` event carries its id, emitted to the scope of its sender. -/
theorem C6_backfill_in_stored_order (store : List Message) (socketId R U : String)
    (hR : truthy R = true) (hU : truthy U = true)
    (hids : (store.map (fun m => m._id)).Nodup) :
    emittedToSocket (joinChat store socketId (.fields (some R) (some U))).2 socketId
        = (store.filter (fun m => m.chatId == R && !(m.status == "delivered")
            && !(m.sender == some U))).map (fun m => (⟨m, none, .stored⟩ : WireMessage))
      ∧ (List.Sorted (fun a b : Nat => a ≤ b) (store.map (fun m => m.createdAt)) →
          List.Sorted (fun a b : Nat => a ≤ b)
            ((emittedToSocket (joinChat store socketId (.fields (some R) (some U))).2
              socketId).map (fun w => w.doc.createdAt)))
      ∧ ∀ m ∈ store.filter (fun m => m.chatId == R && !(m.status == "delivered")
            && !(m.sender == some U)),
          (∃ m', Message.findById (joinChat store socketId (.fields (some R) (some U))).1 m._id
              = some m' ∧ m'.status = "delivered")
          ∧ ackCount (joinChat store socketId (.fields (some R) (some U))).2 m._id = 1
          ∧ (⟨.room (jsString m.sender), .messageDelivered m._id U⟩ : Emit)
              ∈ (joinChat store socketId (.fields (some R) (some U))).2 := by
  rw [joinChat_eq store socketId R U hR hU]
  have hsub : List.Sublist (Message.findUndelivered store R U) store := List.filter_sublist _
  refine ⟨backfill_emittedToSocket _ _ _ _, ?_, ?_⟩
  · intro hsorted
    rw [backfill_emittedToSocket, List.map_map]
    exact List.Pairwise.sublist (List.Sublist.map _ hsub) hsorted
  · intro m hm
    have hm' : m ∈ Message.findUndelivered store R U := hm
    refine ⟨?_, ?_, backfill_ack_mem _ _ _ _ _ hm'⟩
    · apply backfill_delivers _ _ _ _ _ _ hm'
      intro u hu
      exact Message.findById_of_mem store u (hsub.subset hu)
    · rw [backfill_ackCount]
      exact List.count_eq_one_of_mem (List.Nodup.sublist (List.Sublist.map _ hsub) hids)
        (List.mem_map_of_mem _ hm')

/-- C6 as amended, at a store with one undelivered message for bob. -/
theorem C6_backfill_in_stored_order_witness :
    emittedToSocket (joinChat
        [⟨"m1", "global-chat", some "alice", some "hi", none, "text", "sent", 5⟩,
          ⟨"m2", "global-chat", some "bob", some "yo", none, "text", "sent", 6⟩]
        "s9" (.fields (some "global-chat") (some "bob"))).2 "s9"
      = [⟨⟨"m1", "global-chat", some "alice", some "hi", none, "text", "sent", 5⟩, none,
          .stored⟩]
    ∧ ackCount (joinChat
        [⟨"m1", "global-chat", some "alice", some "hi", none, "text", "sent", 5⟩,
          ⟨"m2", "global-chat", some "bob", some "yo", none, "text", "sent", 6⟩]
        "s9" (.fields (some "global-chat") (some "bob"))).2 "m1" = 1 :=
  have h := C6_backfill_in_stored_order
    [⟨"m1", "global-chat", some "alice", some "hi", none, "text", "sent", 5⟩,
      ⟨"m2", "global-chat", some "bob", some "yo", none, "text", "sent", 6⟩]
    "s9" "global-chat" "bob" (by decide) (by decide) (by decide)
  ⟨h.1, (h.2.2 ⟨"m1", "global-chat", some "alice", some "hi", none, "text", "sent", 5⟩
    (by decide)).2.1⟩

/-! ## Status monotonicity -/

/-- The delivered update leaves a delivered message as it is. -/
theorem Message.setDelivered_getElem? (store : List Message) (id : String) (i : Nat)
    (m : Message) (h : store[i]? = some m) (hd : m.status = "delivered") :
    (Message.setDelivered store id)[i]? = some m := by
  unfold Message.setDelivered
  rw [List.getElem?_map, h, Option.map_some']
  congr 1
  split
  · cases m
    simp only at hd
    subst hd
    rfl
  · rfl

theorem Message.setDelivered_idem (store : List Message) (id : String) :
    Message.setDelivered (Message.setDelivered store id) id = Message.setDelivered store id := by
  unfold Message.setDelivered
  rw [List.map_map]
  apply List.map_congr_left
  intro m _
  by_cases h : (m._id == id) = true
  · simp only [Function.comp_apply, h, if_true]
  · have h' : (m._id == id) = false := by simpa using h
    simp only [Function.comp_apply, h', Bool.false_eq_true, if_false]

theorem backfill_getElem? (socketId userId : String) (us store : List Message) (i : Nat)
    (m : Message) (h : store[i]? = some m) (hd : m.status = "delivered") :
    (backfill socketId userId us store).1[i]? = some m := by
  induction us generalizing store with
  | nil => exact h
  | cons u rest ih =>
    simp only [backfill]
    exact ih _ (Message.setDelivered_getElem? store u._id i m h hd)

theorem joinChat_getElem? (store : List Message) (socketId : String) (payload : JoinPayload)
    (i : Nat) (m : Message) (h : store[i]? = some m) (hd : m.status = "delivered") :
    (joinChat store socketId payload).1[i]? = some m := by
  unfold joinChat
  split
  · exact h
  · split
    · exact h
    · exact backfill_getElem? _ _ _ _ _ _ h hd

theorem broadcast_getElem? (redisClient : Option Redis)
    (chats : String → Option (List String)) (store1 : List Message) (chatId : String)
    (data : SendPayload) (msg : WireMessage) (i : Nat) (m : Message)
    (h : store1[i]? = some m) (hd : m.status = "delivered") :
    (broadcast redisClient chats store1 chatId data msg).1[i]? = some m := by
  unfold broadcast
  dsimp only
  split
  · exact Message.setDelivered_getElem? _ _ i m h hd
  · exact h

theorem sendMessage_getElem? (redisClient : Option Redis) (users : String → SenderLookup)
    (chats : String → Option (List String)) (store : List Message) (oid : String) (now : Nat)
    (data : SendPayload) (i : Nat) (m : Message) (h : store[i]? = some m)
    (hd : m.status = "delivered") :
    (sendMessage redisClient users chats store oid now data).1[i]? = some m := by
  have happ : ∀ doc : Message, (store ++ [doc])[i]? = some m := by
    intro doc
    have hlt : i < store.length := by
      by_contra hge
      rw [List.getElem?_eq_none (Nat.le_of_not_lt hge)] at h
      cases h
    rw [List.getElem?_append_left hlt]
    exact h
  unfold sendMessage
  split
  · rename_i chatId store1 msgDoc hc hcreate
    have hstore : store1 = store ++ [Message.ofPayload oid now chatId data] := by
      simp only [Message.create, hc] at hcreate
      split at hcreate
      · simp only [Option.some.injEq, Prod.mk.injEq] at hcreate
        exact hcreate.1.symm
      · cases hcreate
    subst hstore
    split
    · exact broadcast_getElem? _ _ _ _ _ _ i m (happ _) hd
    · split
      · exact happ _
      · exact broadcast_getElem? _ _ _ _ _ _ i m (happ _) hd
  · exact h

/-- C7: a message stored as "delivered" is left as it is by the `joinChat`
handler, by the `sendMessage` handler and by each single delivered update, and
the delivered update applied twice equals the update applied once. -/
theorem C7_delivered_is_never_reversed (redisClient : Option Redis)
    (users : String → SenderLookup)
    (chats : String → Option (List String)) (store : List Message) (socketId : String)
    (payload : JoinPayload) (oid : String) (now : Nat) (data : SendPayload) (id : String)
    (i : Nat) (m : Message) (h : store[i]? = some m) (hd : m.status = "delivered") :
    (joinChat store socketId payload).1[i]? = some m
      ∧ (sendMessage redisClient users chats store oid now data).1[i]? = some m
      ∧ (Message.setDelivered store id)[i]? = some m
      ∧ Message.setDelivered (Message.setDelivered store id) id
          = Message.setDelivered store id :=
  ⟨joinChat_getElem? store socketId payload i m h hd,
    sendMessage_getElem? redisClient users chats store oid now data i m h hd,
    Message.setDelivered_getElem? store id i m h hd,
    Message.setDelivered_idem store id⟩

/-- C7 at a store whose first message is delivered and whose second is not. -/
theorem C7_delivered_is_never_reversed_witness :
    (joinChat
        [⟨"m1", "global-chat", some "alice", some "hi", none, "text", "delivered", 5⟩,
          ⟨"m2", "global-chat", some "alice", some "yo", none, "text", "sent", 6⟩]
        "s9" (.fields (some "global-chat") (some "bob"))).1[0]?
      = some ⟨"m1", "global-chat", some "alice", some "hi", none, "text", "delivered", 5⟩
    ∧ (sendMessage (addOnline (some Redis.init) "bob" "s2").1 (fun _ => .castError)
        (fun c => if c == "global-chat" then some ["alice", "bob"] else none)
        [⟨"m1", "global-chat", some "alice", some "hi", none, "text", "delivered", 5⟩,
          ⟨"m2", "global-chat", some "alice", some "yo", none, "text", "sent", 6⟩]
        "m3" 7
        { chatId := some "global-chat", sender := some "alice", content := some "again",
          replyTo := none, type := none, status := none, createdAt := none,
          _localId := none }).1[0]?
      = some ⟨"m1", "global-chat", some "alice", some "hi", none, "text", "delivered", 5⟩ :=
  have h := C7_delivered_is_never_reversed (addOnline (some Redis.init) "bob" "s2").1
    (fun _ => .castError)
    (fun c => if c == "global-chat" then some ["alice", "bob"] else none)
    [⟨"m1", "global-chat", some "alice", some "hi", none, "text", "delivered", 5⟩,
      ⟨"m2", "global-chat", some "alice", some "yo", none, "text", "sent", 6⟩]
    "s9" (.fields (some "global-chat") (some "bob")) "m3" 7
    { chatId := some "global-chat", sender := some "alice", content := some "again",
      replyTo := none, type := none, status := none, createdAt := none, _localId := none }
    "m1" 0 ⟨"m1", "global-chat", some "alice", some "hi", none, "text", "delivered", 5⟩
    rfl rfl
  ⟨h.1, h.2.1⟩

/-! ## Client: queue flush -/

namespace Client

/-- The queue after the loop: what was there, then the items whose emission threw. -/
theorem flushItems_queue (emitThrows : Nat → Bool) (q : List ClientMessage) (k : Nat)
    (st : ClientState) :
    (flushItems emitThrows k q st).1.queuedMessages
      = st.queuedMessages ++ failedItems emitThrows k q := by
  induction q generalizing k st with
  | nil => simp [flushItems, failedItems]
  | cons qm rest ih =>
    by_cases h : emitThrows k = true
    · simp [flushItems, failedItems, h, ih]
    · simp only [Bool.not_eq_true] at h
      simp [flushItems, failedItems, h, ih]

theorem failedItems_sublist (emitThrows : Nat → Bool) (q : List ClientMessage) (k : Nat) :
    List.Sublist (failedItems emitThrows k q) q := by
  induction q generalizing k with
  | nil => simp [failedItems]
  | cons qm rest ih =>
    by_cases h : emitThrows k = true
    · simp only [failedItems, h, if_true]
      exact List.Sublist.cons₂ _ (ih _)
    · simp only [failedItems, h, if_false]
      exact List.Sublist.cons _ (ih _)

/-- The items before the first failing index are not requeued. -/
theorem failedItems_skip (emitThrows : Nat → Bool) (q : List ClientMessage) (k i : Nat)
    (hfirst : ∀ j < i, emitThrows (k + j) = false) :
    failedItems emitThrows k q = failedItems emitThrows (k + i) (q.drop i) := by
  induction i generalizing q k with
  | zero => simp
  | succ n ih =>
    cases q with
    | nil => simp [failedItems]
    | cons qm rest =>
      have h0 : emitThrows k = false := by simpa using hfirst 0 (Nat.succ_pos n)
      simp only [failedItems, h0, Bool.false_eq_true, if_false, List.drop_succ_cons]
      rw [ih rest (k + 1)]
      · congr 1
        omega
      · intro j hj
        have := hfirst (j + 1) (Nat.succ_lt_succ hj)
        rwa [show k + 1 + j = k + (j + 1) by omega]

/-- When every emission throws, every item is requeued. -/
theorem failedItems_all (emitThrows : Nat → Bool) (q : List ClientMessage) (k : Nat)
    (hall : ∀ j, j < q.length → emitThrows (k + j) = true) :
    failedItems emitThrows k q = q := by
  induction q generalizing k with
  | nil => simp [failedItems]
  | cons qm rest ih =>
    have h0 : emitThrows k = true := by simpa using hall 0 (by simp)
    simp only [failedItems, h0, if_true]
    congr 1
    apply ih
    intro j hj
    have := hall (j + 1) (by simpa using hj)
    rwa [show k + 1 + j = k + (j + 1) by omega]

end Client

/-- C8 fails as stated: with the queue [A, B, C] and only the emission of B
throwing, the first failing index is 1, and the queue after either flush is
[B], not the suffix [B, C]: the loop goes on after a failure and C is sent. -/
theorem C8_flush_continues_after_failure :
    (Client.flushOnConnect (fun k => k == 1)
        [⟨none, some "l_1", "global-chat", "u1", "A", none, "text", "queued", 1⟩,
          ⟨none, some "l_2", "global-chat", "u1", "B", none, "text", "queued", 2⟩,
          ⟨none, some "l_3", "global-chat", "u1", "C", none, "text", "queued", 3⟩]
        ⟨[], [⟨none, some "l_1", "global-chat", "u1", "A", none, "text", "queued", 1⟩,
          ⟨none, some "l_2", "global-chat", "u1", "B", none, "text", "queued", 2⟩,
          ⟨none, some "l_3", "global-chat", "u1", "C", none, "text", "queued", 3⟩]⟩).1.queuedMessages
      = [⟨none, some "l_2", "global-chat", "u1", "B", none, "text", "queued", 2⟩]
    ∧ (Client.resendQueued true (fun k => k == 1)
        [⟨none, some "l_1", "global-chat", "u1", "A", none, "text", "queued", 1⟩,
          ⟨none, some "l_2", "global-chat", "u1", "B", none, "text", "queued", 2⟩,
          ⟨none, some "l_3", "global-chat", "u1", "C", none, "text", "queued", 3⟩]
        ⟨[], [⟨none, some "l_1", "global-chat", "u1", "A", none, "text", "queued", 1⟩,
          ⟨none, some "l_2", "global-chat", "u1", "B", none, "text", "queued", 2⟩,
          ⟨none, some "l_3", "global-chat", "u1", "C", none, "text", "queued", 3⟩]⟩).1.queuedMessages
      = [⟨none, some "l_2", "global-chat", "u1", "B", none, "text", "queued", 2⟩]
    ∧ ([⟨none, some "l_2", "global-chat", "u1", "B", none, "text", "queued", 2⟩]
        : List Client.ClientMessage)
      ≠ List.drop 1
        [⟨none, some "l_1", "global-chat", "u1", "A", none, "text", "queued", 1⟩,
          ⟨none, some "l_2", "global-chat", "u1", "B", none, "text", "queued", 2⟩,
          ⟨none, some "l_3", "global-chat", "u1", "C", none, "text", "queued", 3⟩] := by
  decide

/-- C8 as amended: when the first failing emission is at index `i`, the queue
after either flush holds exactly the items whose own emission failed, in their
original order: it starts with the item at index `i`, continues with the later
items that failed, is a subsequence of the suffix of `q` from `i` (no item of
the sent part before `i` is requeued), and is that whole suffix when every
emission from `i` on fails. -/
theorem C8_flush_requeues_failed_items (emitThrows : Nat → Bool)
    (q messages : List Client.ClientMessage) (i : Nat) (hi : i < q.length)
    (hfirst : ∀ k < i, emitThrows k = false) (hfail : emitThrows i = true) :
    (Client.flushOnConnect emitThrows q ⟨messages, q⟩).1.queuedMessages
        = Client.failedItems emitThrows 0 q
      ∧ (Client.resendQueued true emitThrows q ⟨messages, q⟩).1.queuedMessages
        = Client.failedItems emitThrows 0 q
      ∧ Client.failedItems emitThrows 0 q
        = q[i] :: Client.failedItems emitThrows (i + 1) (q.drop (i + 1))
      ∧ List.Sublist (Client.failedItems emitThrows 0 q) (q.drop i)
      ∧ ((∀ k, i < k → k < q.length → emitThrows k = true) →
          Client.failedItems emitThrows 0 q = q.drop i) := by
  have hskip : Client.failedItems emitThrows 0 q
      = Client.failedItems emitThrows i (q.drop i) := by
    have := Client.failedItems_skip emitThrows q 0 i (by simpa using hfirst)
    simpa using this
  have hpos : 0 < q.length := Nat.lt_of_le_of_lt (Nat.zero_le i) hi
  refine ⟨?_, ?_, ?_, ?_, ?_⟩
  · simp [Client.flushOnConnect, hpos, Client.flushItems_queue]
  · simp [Client.resendQueued, Client.flushItems_queue]
  · rw [hskip, List.drop_eq_getElem_cons hi]
    simp [Client.failedItems, hfail]
  · rw [hskip]
    exact Client.failedItems_sublist _ _ _
  · intro hall
    rw [hskip]
    apply Client.failedItems_all
    intro j hj
    rw [List.length_drop] at hj
    rcases Nat.eq_zero_or_pos j with rfl | hjpos
    · simpa using hfail
    · exact hall (i + j) (by omega) (by omega)

/-- C8 as amended, at the queue [A, B, C] with A sent and B and C failing: the
queue after the flush is [B, C]. -/
theorem C8_flush_requeues_failed_items_witness :
    (Client.flushOnConnect (fun k => decide (1 ≤ k))
        [⟨none, some "l_1", "global-chat", "u1", "A", none, "text", "queued", 1⟩,
          ⟨none, some "l_2", "global-chat", "u1", "B", none, "text", "queued", 2⟩,
          ⟨none, some "l_3", "global-chat", "u1", "C", none, "text", "queued", 3⟩]
        ⟨[], [⟨none, some "l_1", "global-chat", "u1", "A", none, "text", "queued", 1⟩,
          ⟨none, some "l_2", "global-chat", "u1", "B", none, "text", "queued", 2⟩,
          ⟨none, some "l_3", "global-chat", "u1", "C", none, "text", "queued", 3⟩]⟩).1.queuedMessages
      = [⟨none, some "l_2", "global-chat", "u1", "B", none, "text", "queued", 2⟩,
          ⟨none, some "l_3", "global-chat", "u1", "C", none, "text", "queued", 3⟩] :=
  have h := C8_flush_requeues_failed_items (fun k => decide (1 ≤ k))
    [⟨none, some "l_1", "global-chat", "u1", "A", none, "text", "queued", 1⟩,
      ⟨none, some "l_2", "global-chat", "u1", "B", none, "text", "queued", 2⟩,
      ⟨none, some "l_3", "global-chat", "u1", "C", none, "text", "queued", 3⟩]
    [] 1 (by decide) (by decide) (by decide)
  h.1.trans (h.2.2.2.2 (by intro k hk _; simp; omega))

/-! ## Client: the `receiveMessage` reducer -/

namespace Client

/-- The map and the flag of the reducer, each on its own. -/
theorem replaceLocal_eq (msg : ClientMessage) (m : List ClientMessage) :
    replaceLocal msg m
      = (m.map (fun mm => if sameLocal mm msg then msg else mm),
          m.any (fun mm => sameLocal mm msg)) := by
  induction m with
  | nil => rfl
  | cons mm rest ih =>
    by_cases h : sameLocal mm msg = true
    · simp [replaceLocal, h, ih]
    · simp only [Bool.not_eq_true] at h
      simp [replaceLocal, h, ih]

/-- The local identifiers built by `sendMessage` are truthy. -/
theorem localId_truthy (now : Nat) (rnd : String) : truthy (localId now rnd) = true := by
  have hne : localId now rnd ≠ "" := by
    intro h
    have hlen := congrArg String.length h
    simp only [localId, String.length_append] at hlen
    have h2 : "l_".length = 2 := by decide
    have h0 : "".length = 0 := by decide
    omega
  simpa [truthy] using hne

theorem sameLocal_iff (mm msg : ClientMessage) (L : String) (hL : truthy L = true)
    (hs : msg._localId = some L) : sameLocal mm msg = true ↔ mm._localId = some L := by
  unfold sameLocal
  rw [hs]
  constructor
  · intro h
    simp only [Bool.and_eq_true, beq_iff_eq] at h
    exact h.2
  · intro h
    simp [h, truthyOpt, hL]

end Client

/-- C9: when exactly one entry of the list, at position `i`, has the local
identifier `L` of the server-confirmed message `s`, the reducer returns a list
of the same length with `s` at position `i` and every other position as before. -/
theorem C9_confirmed_message_replaces_in_place (m : List Client.ClientMessage)
    (s : Client.ClientMessage) (L : String) (i : Nat)
    (hL : truthy L = true) (hs : s._localId = some L)
    (hi : ∃ mi, m[i]? = some mi ∧ mi._localId = some L)
    (hother : ∀ j mj, j ≠ i → m[j]? = some mj → mj._localId ≠ some L) :
    (Client.receiveMessage m s).length = m.length
      ∧ (Client.receiveMessage m s)[i]? = some s
      ∧ ∀ j, j ≠ i → (Client.receiveMessage m s)[j]? = m[j]? := by
  obtain ⟨mi, hmi, hmiL⟩ := hi
  have hmem : mi ∈ m := List.getElem?_mem hmi
  have hany : m.any (fun mm => Client.sameLocal mm s) = true :=
    List.any_eq_true.mpr ⟨mi, hmem, (Client.sameLocal_iff mi s L hL hs).mpr hmiL⟩
  have hrecv : Client.receiveMessage m s
      = m.map (fun mm => if Client.sameLocal mm s then s else mm) := by
    simp [Client.receiveMessage, Client.replaceLocal_eq, hany, hs, truthyOpt, hL]
  rw [hrecv]
  refine ⟨List.length_map _ _, ?_, ?_⟩
  · rw [List.getElem?_map, hmi, Option.map_some']
    simp [(Client.sameLocal_iff mi s L hL hs).mpr hmiL]
  · intro j hj
    rw [List.getElem?_map]
    cases hmj : m[j]? with
    | none => rfl
    | some mj =>
      have hne : Client.sameLocal mj s = false := by
        cases hsl : Client.sameLocal mj s with
        | false => rfl
        | true => exact absurd ((Client.sameLocal_iff mj s L hL hs).mp hsl) (hother j mj hj hmj)
      simp [hne]

/-- C9 at a list whose second entry is the optimistic copy of the confirmed message. -/
theorem C9_confirmed_message_replaces_in_place_witness :
    (Client.receiveMessage
        [⟨some "id0", none, "global-chat", "u2", "hey", none, "text", "delivered", 1⟩,
          ⟨none, some "l_7_abc", "global-chat", "u1", "hi", none, "text", "queued", 7⟩]
        ⟨some "id1", some "l_7_abc", "global-chat", "u1", "hi", none, "text", "queued", 7⟩).length
      = 2
    ∧ (Client.receiveMessage
        [⟨some "id0", none, "global-chat", "u2", "hey", none, "text", "delivered", 1⟩,
          ⟨none, some "l_7_abc", "global-chat", "u1", "hi", none, "text", "queued", 7⟩]
        ⟨some "id1", some "l_7_abc", "global-chat", "u1", "hi", none, "text", "queued", 7⟩)[1]?
      = some ⟨some "id1", some "l_7_abc", "global-chat", "u1", "hi", none, "text", "queued", 7⟩ :=
  have h := C9_confirmed_message_replaces_in_place
    [⟨some "id0", none, "global-chat", "u2", "hey", none, "text", "delivered", 1⟩,
      ⟨none, some "l_7_abc", "global-chat", "u1", "hi", none, "text", "queued", 7⟩]
    ⟨some "id1", some "l_7_abc", "global-chat", "u1", "hi", none, "text", "queued", 7⟩
    "l_7_abc" 1 (by decide) rfl ⟨_, rfl, rfl⟩
    (by
      intro j mj hj hmj
      match j, hj, hmj with
      | 0, _, hmj =>
        simp only [List.getElem?_cons_zero, Option.some.injEq] at hmj
        subst hmj
        simp
      | 1, hj, _ => exact absurd rfl hj
      | n + 2, _, hmj => simp at hmj)
  ⟨h.1, h.2.1⟩

namespace Client

/-- With no entry carrying the message's local identifier the map changes nothing. -/
theorem map_sameLocal_of_none (m : List ClientMessage) (s : ClientMessage)
    (h : m.any (fun mm => sameLocal mm s) = false) :
    m.map (fun mm => if sameLocal mm s then s else mm) = m := by
  induction m with
  | nil => rfl
  | cons mm rest ih =>
    simp only [List.any_cons, Bool.or_eq_false_iff] at h
    simp [h.1, ih h.2]

/-- The reducer when the local identifier is absent or matches no entry. -/
theorem receiveMessage_no_local (m : List ClientMessage) (s : ClientMessage)
    (hlocal : truthyOpt s._localId = false ∨ ∀ mm ∈ m, mm._localId ≠ s._localId) :
    (truthyOpt s._localId && m.any (fun mm => sameLocal mm s)) = false := by
  rcases hlocal with h | h
  · simp [h]
  · have : m.any (fun mm => sameLocal mm s) = false := by
      rw [List.any_eq_false]
      intro mm hmm
      simp [sameLocal, h mm hmm]
    simp [this]

/-- The `some` test of the reducer finds an entry with the same server identifier. -/
theorem any_same_id (m : List ClientMessage) (s : ClientMessage) (sid : String)
    (hid : s._id = some sid) (hundef : sid ≠ "undefined") :
    m.any (fun mm => jsString mm._id == jsString s._id) = true ↔
      ∃ mm ∈ m, mm._id = some sid := by
  rw [List.any_eq_true, hid]
  constructor
  · rintro ⟨mm, hmm, h⟩
    refine ⟨mm, hmm, ?_⟩
    simp only [jsString, beq_iff_eq] at h
    cases hx : mm._id with
    | none =>
      rw [hx] at h
      exact absurd h.symm hundef
    | some x =>
      rw [hx] at h
      simp only at h
      rw [h]
  · rintro ⟨mm, hmm, h⟩
    exact ⟨mm, hmm, by simp [h, jsString]⟩

end Client

/-- C10: for a server-confirmed message whose local identifier is absent or
matches no entry, the reducer returns the list unchanged when some entry has
the same server identifier and appends the message otherwise; delivering the
message a second time changes nothing. -/
theorem C10_duplicate_server_message_is_suppressed (m : List Client.ClientMessage)
    (s : Client.ClientMessage) (sid : String)
    (hid : s._id = some sid) (hsid : truthy sid = true) (hundef : sid ≠ "undefined")
    (hlocal : truthyOpt s._localId = false ∨ ∀ mm ∈ m, mm._localId ≠ s._localId) :
    ((∃ mm ∈ m, mm._id = some sid) → Client.receiveMessage m s = m)
      ∧ ((¬ ∃ mm ∈ m, mm._id = some sid) → Client.receiveMessage m s = m ++ [s])
      ∧ Client.receiveMessage (Client.receiveMessage m s) s = Client.receiveMessage m s := by
  have hfirst := Client.receiveMessage_no_local m s hlocal
  have hany := Client.any_same_id m s sid hid hundef
  have htid : truthyOpt s._id = true := by simp [hid, truthyOpt, hsid]
  have hdup : (∃ mm ∈ m, mm._id = some sid) → Client.receiveMessage m s = m := by
    intro h
    simp [Client.receiveMessage, Client.replaceLocal_eq, hfirst, htid, hany.mpr h]
  have hnew : (¬ ∃ mm ∈ m, mm._id = some sid) → Client.receiveMessage m s = m ++ [s] := by
    intro h
    have hfalse : m.any (fun mm => jsString mm._id == jsString s._id) = false := by
      cases hc : m.any (fun mm => jsString mm._id == jsString s._id) with
      | false => rfl
      | true => exact absurd (hany.mp hc) h
    simp [Client.receiveMessage, Client.replaceLocal_eq, hfirst, htid, hfalse]
  refine ⟨hdup, hnew, ?_⟩
  by_cases h : ∃ mm ∈ m, mm._id = some sid
  · rw [hdup h, hdup h]
  · rw [hnew h]
    by_cases hl : truthyOpt s._localId = true
    · have hnone : m.any (fun mm => Client.sameLocal mm s) = false := by
        simpa [hl] using hfirst
      have hself : Client.sameLocal s s = true := by simp [Client.sameLocal, hl]
      simp [Client.receiveMessage, Client.replaceLocal_eq, hl, hself,
        Client.map_sameLocal_of_none m s hnone]
    · simp only [Bool.not_eq_true] at hl
      simp [Client.receiveMessage, Client.replaceLocal_eq, hl, htid]

/-- C10 at a list that already holds the message with identifier "id1". -/
theorem C10_duplicate_server_message_is_suppressed_witness :
    Client.receiveMessage
        [⟨some "id1", none, "global-chat", "u2", "hey", none, "text", "sent", 1⟩]
        ⟨some "id1", none, "global-chat", "u2", "hey", none, "text", "sent", 1⟩
      = [⟨some "id1", none, "global-chat", "u2", "hey", none, "text", "sent", 1⟩] :=
  (C10_duplicate_server_message_is_suppressed
    [⟨some "id1", none, "global-chat", "u2", "hey", none, "text", "sent", 1⟩]
    ⟨some "id1", none, "global-chat", "u2", "hey", none, "text", "sent", 1⟩
    "id1" rfl (by decide) (by decide) (Or.inl rfl)).1 ⟨_, List.mem_cons_self _ _, rfl⟩

/-! ## Presence store: registration and removal -/

theorem sAdd_idem (members : List String) (x : String) :
    sAdd (sAdd members x) x = sAdd members x := by
  have hmem : x ∈ sAdd members x := (mem_sAdd members x x).mpr (Or.inr rfl)
  generalize sAdd members x = l at hmem
  unfold sAdd
  rw [if_pos hmem]

theorem sAdd_nodup (members : List String) (x : String) (h : members.Nodup) :
    (sAdd members x).Nodup := by
  unfold sAdd
  split
  · exact h
  · rename_i hx
    exact List.Nodup.append h (List.nodup_singleton x) (by simpa using hx)

theorem sRem_nodup (members : List String) (x : String) (h : members.Nodup) :
    (sRem members x).Nodup :=
  List.Nodup.filter _ h

/-- The cardinality after `SADD`, read on sets. -/
theorem sCard_sAdd (members : List String) (x : String) (h : members.Nodup) :
    sCard (sAdd members x) = (insert x members.toFinset).card := by
  have hfin : (sAdd members x).toFinset = insert x members.toFinset := by
    ext y
    simp [mem_sAdd, or_comm]
  rw [← hfin, List.toFinset_card_of_nodup (sAdd_nodup members x h)]
  rfl

/-- Removing a member of a duplicate-free set lowers the cardinality by one. -/
theorem sCard_sRem_of_mem (members : List String) (x : String) (h : members.Nodup)
    (hx : x ∈ members) : sCard (sRem members x) + 1 = sCard members := by
  induction members with
  | nil => cases hx
  | cons y rest ih =>
    unfold sCard sRem at ih ⊢
    rw [List.nodup_cons] at h
    by_cases hy : y = x
    · subst hy
      have hnone : List.filter (fun z => !(z == y)) rest = rest := by
        rw [List.filter_eq_self]
        intro z hz
        have : z ≠ y := fun hzy => h.1 (hzy ▸ hz)
        simpa using this
      simp [List.filter_cons, hnone]
    · have hx' : x ∈ rest := by
        rcases List.mem_cons.mp hx with hxy | hxr
        · exact absurd hxy.symm hy
        · exact hxr
      have hy' : (y == x) = false := by simpa using hy
      simp only [List.filter_cons, hy', Bool.not_false, if_true, List.length_cons]
      rw [ih h.2 hx']

/-- The call `addOnline` with a client, written out. -/
theorem addOnline_some (r : Redis) (userId socketId : String) :
    addOnline (some r) userId socketId
      = (some ⟨Function.update r.online userId (sAdd (r.online userId) socketId),
            Function.update r.socket socketId (some userId)⟩,
          sCard (sAdd (r.online userId) socketId)) := by
  simp [addOnline]

/-- C11: with a client present, `addOnline(u, c)` puts `c` in `online:u` and
returns the number of socket ids in that set after the addition; a second
`addOnline(u, c)` returns the same count and leaves the store as the first
call left it. -/
theorem C11_addOnline_count_and_idempotent (r : Redis) (u c : String)
    (hnodup : (r.online u).Nodup) :
    c ∈ onlineSet (addOnline (some r) u c).1 u
      ∧ (addOnline (some r) u c).2 = (insert c (r.online u).toFinset).card
      ∧ (addOnline (some r) u c).2 = occupancy (addOnline (some r) u c).1 u
      ∧ addOnline (addOnline (some r) u c).1 u c = addOnline (some r) u c := by
  rw [addOnline_some]
  refine ⟨?_, ?_, ?_, ?_⟩
  · simp [onlineSet, mem_sAdd]
  · exact sCard_sAdd (r.online u) c hnodup
  · simp [occupancy, onlineSet]
  · rw [addOnline_some]
    simp [Function.update_idem, sAdd_idem]

/-- C11 at a store where `u1` already has the connection `s1`: registering
`s2` returns 2, and so does registering it again. -/
theorem C11_addOnline_count_and_idempotent_witness :
    (addOnline (addOnline (some Redis.init) "u1" "s1").1 "u1" "s2").2 = 2
      ∧ (addOnline (addOnline (addOnline (some Redis.init) "u1" "s1").1 "u1" "s2").1
          "u1" "s2").2 = 2 :=
  have h := C11_addOnline_count_and_idempotent
    ⟨Function.update Redis.init.online "u1" (sAdd (Redis.init.online "u1") "s1"),
      Function.update Redis.init.socket "s1" (some "u1")⟩ "u1" "s2" (by decide)
  ⟨h.2.1.trans (by decide), (congrArg Prod.snd h.2.2.2).trans (h.2.1.trans (by decide))⟩

/-- The call `removeOnline` when the reverse mapping is missing. -/
theorem removeOnline_none (r : Redis) (socketId : String) (h : r.socket socketId = none) :
    removeOnline (some r) socketId = (some r, none) := by
  simp [removeOnline, h]

/-- The call `removeOnline` when the reverse mapping names a user. -/
theorem removeOnline_some (r : Redis) (socketId userId : String)
    (h : r.socket socketId = some userId) (ht : truthy userId = true) :
    removeOnline (some r) socketId
      = (some ⟨Function.update r.online userId (sRem (r.online userId) socketId),
            Function.update r.socket socketId none⟩,
          some (userId, sCard (sRem (r.online userId) socketId))) := by
  simp [removeOnline, h, ht]

/-- On every store reached from the empty one, the user a socket id maps to has
that socket id in their set, and every set is duplicate-free. -/
theorem presence_reachable (ops : List PresenceOp) :
    ∃ r, runPresence (some Redis.init) ops = some r
      ∧ (∀ s u, r.socket s = some u → s ∈ r.online u)
      ∧ (∀ u, (r.online u).Nodup) := by
  induction ops using List.reverseRecOn with
  | nil => exact ⟨Redis.init, rfl, by simp [Redis.init], by simp [Redis.init]⟩
  | append_singleton ops op ih =>
    obtain ⟨r, hr, hown, hnodup⟩ := ih
    rw [runPresence_concat, hr]
    cases op with
    | addOnline userId socketId =>
      refine ⟨_, congrArg Prod.fst (addOnline_some r userId socketId), ?_, ?_⟩
      · intro s u hs
        simp only [Function.update_apply] at hs ⊢
        by_cases hsid : s = socketId
        · simp only [hsid, if_true, Option.some.injEq] at hs
          subst hs
          simp [hsid, mem_sAdd]
        · simp only [hsid, if_false] at hs
          by_cases hu : u = userId
          · simp only [hu, if_true, mem_sAdd]
            exact Or.inl (hu ▸ hown s u hs)
          · simp only [hu, if_false]
            exact hown s u hs
      · intro u
        simp only [Function.update_apply]
        by_cases hu : u = userId
        · simp only [hu, if_true]
          exact sAdd_nodup _ _ (hnodup userId)
        · simp only [hu, if_false]
          exact hnodup u
    | removeOnline socketId =>
      cases hget : r.socket socketId with
      | none =>
        exact ⟨r, congrArg Prod.fst (removeOnline_none r socketId hget), hown, hnodup⟩
      | some userId =>
        by_cases ht : truthy userId = true
        · refine ⟨_, congrArg Prod.fst (removeOnline_some r socketId userId hget ht), ?_, ?_⟩
          · intro s u hs
            simp only [Function.update_apply] at hs ⊢
            by_cases hsid : s = socketId
            · simp [hsid] at hs
            · simp only [hsid, if_false] at hs
              by_cases hu : u = userId
              · simp only [hu, if_true, mem_sRem]
                exact ⟨hu ▸ hown s u hs, hsid⟩
              · simp only [hu, if_false]
                exact hown s u hs
          · intro u
            simp only [Function.update_apply]
            by_cases hu : u = userId
            · simp only [hu, if_true]
              exact sRem_nodup _ _ (hnodup userId)
            · simp only [hu, if_false]
              exact hnodup u
        · refine ⟨r, ?_, hown, hnodup⟩
          simp only [Bool.not_eq_true] at ht
          simp [PresenceOp.apply, removeOnline, hget, ht]

/-- C12, evaluated on the code: from the store reached by `addOnline("A","s1")`
and `addOnline("B","s1")`, `removeOnline("s1")` returns user `B` with 0
remaining, and afterwards `s1` is still in the set `online:A`. -/
theorem C12_socket_left_in_earlier_user_set :
    (removeOnline (runPresence (some Redis.init)
        [.addOnline "A" "s1", .addOnline "B" "s1"]) "s1").2 = some ("B", 0)
      ∧ "s1" ∈ onlineSet (removeOnline (runPresence (some Redis.init)
        [.addOnline "A" "s1", .addOnline "B" "s1"]) "s1").1 "A" := by
  decide

/-- The removal contract on the stores reached by sequences in which no socket
id is registered for two different users and no user id is empty:
`removeOnline(c)` returns `null` exactly when `c` has no reverse mapping, and
then leaves the store as it is; otherwise it returns the user of `c` and the
size of that user's set after the removal, `socket:c` is deleted and `c` is in
no user's set. -/
theorem removeOnline_on_single_user_sequences (ops : List PresenceOp)
    (hone : ∀ u u' s, PresenceOp.addOnline u s ∈ ops → PresenceOp.addOnline u' s ∈ ops → u = u')
    (htruthy : ∀ u s, PresenceOp.addOnline u s ∈ ops → truthy u = true) (c : String) :
    ((removeOnline (runPresence (some Redis.init) ops) c).2 = none ↔
        socketOwner (runPresence (some Redis.init) ops) c = none)
      ∧ ((removeOnline (runPresence (some Redis.init) ops) c).2 = none →
        (removeOnline (runPresence (some Redis.init) ops) c).1
          = runPresence (some Redis.init) ops)
      ∧ ∀ u n, (removeOnline (runPresence (some Redis.init) ops) c).2 = some (u, n) →
          socketOwner (runPresence (some Redis.init) ops) c = some u
          ∧ n = occupancy (removeOnline (runPresence (some Redis.init) ops) c).1 u
          ∧ socketOwner (removeOnline (runPresence (some Redis.init) ops) c).1 c = none
          ∧ ∀ u', c ∉ onlineSet (removeOnline (runPresence (some Redis.init) ops) c).1 u' := by
  obtain ⟨r, hr, honline, hsocket⟩ := presence_invariant ops hone htruthy
  rw [hr]
  cases hget : r.socket c with
  | none =>
    rw [removeOnline_none r c hget]
    simp [socketOwner, hget]
  | some v =>
    have hlive : liveRegistration ops v c := (hsocket v c).mp hget
    have ht : truthy v = true := htruthy v c (liveRegistration_mem ops v c hlive)
    rw [removeOnline_some r c v hget ht]
    refine ⟨by simp [socketOwner, hget], by simp, ?_⟩
    intro u n hun
    simp only [Option.some.injEq, Prod.mk.injEq] at hun
    obtain ⟨rfl, rfl⟩ := hun
    refine ⟨by simp [socketOwner, hget], by simp [occupancy, onlineSet],
      by simp [socketOwner], ?_⟩
    intro u' hmem
    simp only [onlineSet, Function.update_apply] at hmem
    by_cases hu : u' = v
    · simp only [hu, if_true, mem_sRem] at hmem
      exact hmem.2 rfl
    · simp only [hu, if_false] at hmem
      have := (hsocket u' c).mpr ((honline u' c).mp hmem)
      rw [hget] at this
      exact hu (Option.some.inj this).symm

/-! ## Presence events -/

/-- The two registering handlers broadcast `userOnline` for every truthy user
id, whatever the store holds. -/
theorem registration_always_broadcasts (redisClient : Option Redis) (socket : Socket)
    (u : String) (hu : truthy u = true) :
    (onConnection redisClient socket (some u)).2.2 = [⟨.all, .userOnline u⟩]
      ∧ (onUserOnline redisClient socket (some u)).2.2 = [⟨.all, .userOnline u⟩] := by
  simp [onConnection, onUserOnline, hu]

/-- C13, evaluated on the code: `u1` already has the connection `s1`, so the
occupancy is 1; a second connection `s2` of `u1` raises it to 2, and both the
`connection` handler and the `userOnline` handler still broadcast
`userOnline("u1")`. -/
theorem C13_userOnline_broadcast_without_transition :
    occupancy (addOnline (some Redis.init) "u1" "s1").1 "u1" = 1
      ∧ occupancy (onConnection (addOnline (some Redis.init) "u1" "s1").1 ⟨"s2", []⟩
          (some "u1")).1 "u1" = 2
      ∧ (onConnection (addOnline (some Redis.init) "u1" "s1").1 ⟨"s2", []⟩
          (some "u1")).2.2 = [⟨.all, .userOnline "u1"⟩]
      ∧ occupancy (onUserOnline (addOnline (some Redis.init) "u1" "s1").1 ⟨"s2", []⟩
          (some "u1")).1 "u1" = 2
      ∧ (onUserOnline (addOnline (some Redis.init) "u1" "s1").1 ⟨"s2", []⟩
          (some "u1")).2.2 = [⟨.all, .userOnline "u1"⟩] := by
  decide

/-- The `disconnect` handler on a store reached from the empty one broadcasts
`userOffline(u)` only when the removal lowers the occupancy of `u` from 1 to 0. -/
theorem onDisconnect_userOffline_only_on_last (ops : List PresenceOp) (socket : Socket)
    (u : String)
    (h : (⟨.all, .userOffline u⟩ : Emit)
      ∈ (onDisconnect (runPresence (some Redis.init) ops) socket).2) :
    occupancy (runPresence (some Redis.init) ops) u = 1
      ∧ occupancy (onDisconnect (runPresence (some Redis.init) ops) socket).1 u = 0 := by
  obtain ⟨r, hr, hown, hnodup⟩ := presence_reachable ops
  rw [hr] at h ⊢
  cases hget : r.socket socket.id with
  | none =>
    simp [onDisconnect, removeOnline_none r socket.id hget] at h
  | some v =>
    by_cases ht : truthy v = true
    · simp only [onDisconnect, removeOnline_some r socket.id v hget ht] at h ⊢
      by_cases hz : sCard (sRem (r.online v) socket.id) = 0
      · simp only [ht, hz, beq_self_eq_true, Bool.and_self, if_true, List.mem_singleton,
          Emit.mk.injEq, Event.userOffline.injEq, true_and] at h ⊢
        subst h
        have hcard := sCard_sRem_of_mem (r.online u) socket.id (hnodup u) (hown _ _ hget)
        refine ⟨?_, ?_⟩
        · simp only [occupancy, onlineSet]
          omega
        · simpa [occupancy, onlineSet] using hz
      · have hz' : (sCard (sRem (r.online v) socket.id) == 0) = false := by simpa using hz
        simp [hz'] at h
    · simp only [Bool.not_eq_true] at ht
      have hrem : removeOnline (some r) socket.id = (some r, none) := by
        simp [removeOnline, hget, ht]
      simp [onDisconnect, hrem] at h

end WhatAppLLD
